import Mathlib

/-!
Shallow embedding of `matlab/src/bits/impl/nnconv3d_blas.hpp`: the BLAS-based
3-D convolution forward and backward pipelines (`nnconv3d_forward_blas`,
`nnconv3d_backward_blas`).

Modelling conventions:
* a 5-D tensor is its shape plus a flat column-major memory `Nat → ℚ`
  (dimension 0 fastest, batch slowest); floating-point scalars are embedded
  as rationals, so the algebraic structure of the computation is exact;
* the external primitives (`vol2row`/`row2vol` from `vol2row.hpp`, `gemm`/`gemv`
  from `blashelper.hpp`, workspace and ones-vector acquisition) are not among
  the analysed sources; they are modelled from the specification of unfold,
  fold (adjoint of unfold, overlaps sum) and the standard column-major BLAS
  multiply-accumulate semantics;
* the per-image loops and per-group loops are explicit folds (`forLoop`),
  mirroring the statement order of the source;
* `ptrdiff_t` division by zero is undefined behavior in C++; the backward
  entry point is therefore `Option`-valued and returns `none` exactly when the
  source would divide `derOutput.getDimension(3)` by `numGroups = 0`.
-/

/-- A 5-D tensor: dimensions `(height, width, depth/time, channels, batch)` and
flat column-major backing memory (dimension 0 varies fastest). -/
structure Tensor where
  d0 : Nat
  d1 : Nat
  d2 : Nat
  d3 : Nat
  d4 : Nat
  mem : Nat → ℚ

/-- Stride and padding parameters of one convolution call
(`strideY/X/T`, `padTop/Bottom/Left/Right` and the single time padding `padT`
of the source signature). -/
structure ConvParams where
  strideY : Nat
  strideX : Nat
  strideT : Nat
  padTop : Nat
  padBottom : Nat
  padLeft : Nat
  padRight : Nat
  padTime : Nat

/-- Output extent of a convolution along one dimension. -/
def outDim (inS fS s pA pB : Nat) : Nat := (inS + pA + pB - fS) / s + 1

/-- `filtersVolume` of the source: product of the first four filter dimensions. -/
def fVol (f : Tensor) : Nat := f.d0 * f.d1 * f.d2 * f.d3

/-- `getNumElements()` of a tensor. -/
def numElements (t : Tensor) : Nat := t.d0 * t.d1 * t.d2 * t.d3 * t.d4

/-- The ones vector returned by `context.getAllOnes`. -/
def allOnes : Nat → ℚ := fun _ => 1

/-- Sequential `for (i = 0 ; i < n ; ++i)` loop over a state `α`:
`forLoop f n s` applies `f 0`, then `f 1`, …, then `f (n-1)`. -/
def forLoop {α : Type} (f : Nat → α → α) : Nat → α → α
  | 0, s => s
  | n + 1, s => f n (forLoop f n s)

/-- Modelled from the spec: dense multiply-accumulate
`C := beta * C + alpha * op(A) * op(B)` (the external BLAS `gemm` of
`blashelper.hpp`, column-major).  `A` and `B` are read through their leading
dimensions `lda`, `ldb`; the destination is a flat memory `C` written at offset
`coff` with leading dimension `ldc`; all other cells of `C` are untouched. -/
def gemm (tA tB : Bool) (m n k : Nat) (alpha : ℚ) (A : Nat → ℚ) (lda : Nat)
    (B : Nat → ℚ) (ldb : Nat) (beta : ℚ) (C : Nat → ℚ) (ldc coff : Nat) : Nat → ℚ :=
  fun idx =>
    if coff ≤ idx ∧ (idx - coff) % ldc < m ∧ (idx - coff) / ldc < n then
      beta * C idx + alpha * ∑ l ∈ Finset.range k,
        (if tA then A (l + lda * ((idx - coff) % ldc)) else A ((idx - coff) % ldc + lda * l)) *
        (if tB then B ((idx - coff) / ldc + ldb * l) else B (l + ldb * ((idx - coff) / ldc)))
    else C idx

/-- Modelled from the spec: the external BLAS `gemv` with transposition
(`y := beta * y + alpha * Aᵀ * x`), as used by the bias-gradient reduction. -/
def gemvT (m n : Nat) (alpha : ℚ) (A : Nat → ℚ) (lda : Nat) (x : Nat → ℚ)
    (beta : ℚ) (y : Nat → ℚ) : Nat → ℚ :=
  fun j =>
    if j < n then beta * y j + alpha * ∑ i ∈ Finset.range m, A (i + lda * j) * x i
    else y j

/-- Number of output pixels implied by data dimensions, filter dimensions and
convolution parameters (the row count of the unfolded patch matrix). -/
def nOutPix (P : ConvParams) (dH dW dT fH fW fT : Nat) : Nat :=
  outDim dH fH P.strideY P.padTop P.padBottom *
    outDim dW fW P.strideX P.padLeft P.padRight *
    outDim dT fT P.strideT P.padTime P.padTime

/-- Modelled from the spec: the input position read by the unfold transform for
output pixel `p` and patch-matrix column `col` (`vol2row.hpp` is not among the
analysed sources).  `p` decodes into the output coordinates, `col` into the
filter-window coordinates and the input channel; the result is the flat input
index, or `none` when the position falls into the padding (unfold then reads a
zero). -/
def unfoldTarget (P : ConvParams) (dH dW dT : Nat) (fH fW fT : Nat) (p col : Nat) : Option Nat :=
  let oH := outDim dH fH P.strideY P.padTop P.padBottom
  let oW := outDim dW fW P.strideX P.padLeft P.padRight
  let oy := p % oH
  let ox := p / oH % oW
  let ot := p / (oH * oW)
  let fy := col % fH
  let fx := col / fH % fW
  let ft := col / (fH * fW) % fT
  let c := col / (fH * fW * fT)
  let y := oy * P.strideY + fy
  let x := ox * P.strideX + fx
  let t := ot * P.strideT + ft
  if P.padTop ≤ y ∧ y - P.padTop < dH ∧ P.padLeft ≤ x ∧ x - P.padLeft < dW ∧
      P.padTime ≤ t ∧ t - P.padTime < dT then
    some (y - P.padTop + dH * (x - P.padLeft + dW * (t - P.padTime + dT * c)))
  else none

/-- Modelled from the spec: the unfold transform (`vol2row`).  It overwrites the
patch matrix — `nOutPix` rows by `fH*fW*fT*dC` columns, stored column-major —
with windowed copies of the source volume (zero on padding) and leaves the rest
of the workspace (`temp0`) unchanged. -/
def vol2row (P : ConvParams) (src : Nat → ℚ) (dH dW dT dC fH fW fT : Nat)
    (temp0 : Nat → ℚ) : Nat → ℚ :=
  let nOP := nOutPix P dH dW dT fH fW fT
  let nCols := fH * fW * fT * dC
  fun idx =>
    if idx < nOP * nCols then
      match unfoldTarget P dH dW dT fH fW fT (idx % nOP) (idx / nOP) with
      | some l => src l
      | none => 0
    else temp0 idx

/-- Modelled from the spec: the fold transform (`row2vol`), adjoint of unfold.
It overwrites the destination volume (one image slice at offset `dstOff`) with,
at each input position, the sum of all patch-matrix cells that unfold reads
from that position (overlapping contributions sum); other destination cells are
untouched. -/
def row2vol (P : ConvParams) (dst : Nat → ℚ) (dstOff : Nat) (dH dW dT dC fH fW fT : Nat)
    (src : Nat → ℚ) : Nat → ℚ :=
  let nOP := nOutPix P dH dW dT fH fW fT
  let nCols := fH * fW * fT * dC
  fun idx =>
    if dstOff ≤ idx ∧ idx - dstOff < dH * dW * dT * dC then
      ∑ p ∈ Finset.range nOP, ∑ col ∈ Finset.range nCols,
        if unfoldTarget P dH dW dT fH fW fT p col = some (idx - dstOff) then src (p + nOP * col)
        else 0
    else dst idx

/-- One iteration of the forward per-group multiply (source lines 123-138):
`output_g := outputMult * output_g + dataMult * temp_g * filters_g` with the
group offsets `tempGrpOffset = nOP*fV*g`, `filterGrpOffset = fV*nFPG*g`,
`outputGrpOffset = nOP*nFPG*g`. -/
def forwardGroupStep (nOP nFPG fV : Nat) (dataMult outputMult : ℚ)
    (temp filtersMem : Nat → ℚ) (outputOffset g : Nat) (out : Nat → ℚ) : Nat → ℚ :=
  gemm false false nOP nFPG fV dataMult (fun i => temp (nOP * fV * g + i)) nOP
    (fun i => filtersMem (fV * nFPG * g + i)) fV outputMult out nOP
    (outputOffset + nOP * nFPG * g)

/-- One image of the forward pipeline (source lines 109-153): unfold the
image's slice into the workspace, run one grouped multiply per group, then the
optional bias broadcast (rank-1 update by the ones vector). -/
def forwardImage (P : ConvParams) (output : Tensor) (outputMult : ℚ) (data : Tensor)
    (dataMult : ℚ) (filters : Tensor) (biases : Option Tensor) (temp0 : Nat → ℚ)
    (image : Nat) (out : Nat → ℚ) : Nat → ℚ :=
  let numGroups := data.d3 / filters.d3
  let numFiltersPerGroup := filters.d4 / numGroups
  let numOutputPixels := output.d0 * output.d1 * output.d2
  let filtersVolume := fVol filters
  let dataOffset := data.d0 * data.d1 * data.d2 * data.d3 * image
  let outputOffset := output.d0 * output.d1 * output.d2 * output.d3 * image
  let temp := vol2row P (fun l => data.mem (dataOffset + l)) data.d0 data.d1 data.d2
    data.d3 filters.d0 filters.d1 filters.d2 temp0
  let afterGroups := forLoop
    (forwardGroupStep numOutputPixels numFiltersPerGroup filtersVolume dataMult
      outputMult temp filters.mem outputOffset) numGroups out
  match biases with
  | some b =>
      gemm false false numOutputPixels (numElements b) 1 1 allOnes numOutputPixels
        b.mem 1 1 afterGroups numOutputPixels outputOffset
  | none => afterGroups

/-- The forward pipeline `nnconv3d_forward_blas` (source lines 76-157): the
per-image loop over the batch.  The result is the final contents of the output
tensor's memory. -/
def nnconv3d_forward_blas (P : ConvParams) (output : Tensor) (outputMult : ℚ)
    (data : Tensor) (dataMult : ℚ) (filters : Tensor) (biases : Option Tensor)
    (temp0 : Nat → ℚ) : Nat → ℚ :=
  forLoop (forwardImage P output outputMult data dataMult filters biases temp0)
    data.d4 output.mem

/-- Modelled from the spec: `Tensor::getDepth()` (the `Tensor` class is not
among the analysed sources); per the spec the bias reduction runs over the
output channels, i.e. dimension 3. -/
def getDepth (t : Tensor) : Nat := t.d3

/-- `numGroups` of the backward pipeline (source lines 174, 196-207): derived
from `derData` when present, else from `derFilters`, else left `0`. -/
def backwardNumGroups (derData derFilters : Option Tensor) (data filters : Tensor) : Nat :=
  match derData with
  | some dd => dd.d3 / filters.d3
  | none =>
    match derFilters with
    | some df => data.d3 / df.d3
    | none => 0

/-- `filtersVolume` of the backward pipeline (source lines 176, 196-207):
derived from `filters` when `derData` is present, else from `derFilters`,
else left `0`. -/
def backwardFiltersVolume (derData derFilters : Option Tensor) (filters : Tensor) : Nat :=
  match derData with
  | some _ => fVol filters
  | none =>
    match derFilters with
    | some df => fVol df
    | none => 0

/-- The mutable memories of one backward call: the three gradient destinations
and the scratch workspace. -/
structure BwdState where
  derDataMem : Nat → ℚ
  derFiltersMem : Nat → ℚ
  derBiasesMem : Nat → ℚ
  tempMem : Nat → ℚ

/-- One iteration of the input-gradient per-group multiply (source lines
244-259): `temp_g := derOutput_g * filtersᵗ_g` with `alpha = 1`, `beta = 0`
(overwrite). -/
def derDataGroupStep (nOP nFPG fV : Nat) (derOutMem filtersMem : Nat → ℚ)
    (derOutputOffset g : Nat) (temp : Nat → ℚ) : Nat → ℚ :=
  gemm false true nOP fV nFPG 1
    (fun i => derOutMem (derOutputOffset + nOP * nFPG * g + i)) nOP
    (fun i => filtersMem (fV * nFPG * g + i)) fV 0 temp nOP (nOP * fV * g)

/-- One iteration of the filter-gradient per-group multiply (source lines
282-298): `derFilters_g := beta * derFilters_g + tempᵗ_g * derOutput_g` with
`beta = (image > 0)`. -/
def derFiltersGroupStep (nOP nFPG fV : Nat) (temp derOutMem : Nat → ℚ)
    (derOutputOffset : Nat) (beta : ℚ) (g : Nat) (dF : Nat → ℚ) : Nat → ℚ :=
  gemm true false fV nFPG nOP 1 (fun i => temp (nOP * fV * g + i)) nOP
    (fun i => derOutMem (derOutputOffset + nOP * nFPG * g + i)) nOP beta dF fV
    (fV * nFPG * g)

/-- One image of the backward pipeline (source lines 220-300): the bias-gradient
reduction (`beta = (image > 0)`), then the input-gradient branch (per-group
overwrite multiplies into the workspace followed by the fold), then the
filter-gradient branch (unfold followed by per-group accumulate multiplies). -/
def backwardImage (P : ConvParams) (derData derFilters derBiases : Option Tensor)
    (data filters derOutput : Tensor)
    (numGroups numFiltersPerGroup filtersVolume numOutputPixels : Nat)
    (image : Nat) (st : BwdState) : BwdState :=
  let derOutputOffset := derOutput.d0 * derOutput.d1 * derOutput.d2 * derOutput.d3 * image
  let st1 :=
    match derBiases with
    | some _ =>
        { st with derBiasesMem :=
            (gemvT numOutputPixels (getDepth derOutput) 1
              (fun i => derOutput.mem (derOutputOffset + i)) numOutputPixels allOnes
              (if 0 < image then 1 else 0) st.derBiasesMem) }
    | none => st
  let st2 :=
    match derData with
    | some dd =>
        let derDataOffset := dd.d0 * dd.d1 * dd.d2 * dd.d3 * image
        let temp := forLoop
          (derDataGroupStep numOutputPixels numFiltersPerGroup filtersVolume
            derOutput.mem filters.mem derOutputOffset) numGroups st1.tempMem
        { st1 with
            tempMem := temp,
            derDataMem := row2vol P st1.derDataMem derDataOffset dd.d0 dd.d1 dd.d2 dd.d3
              filters.d0 filters.d1 filters.d2 temp }
    | none => st1
  match derFilters with
  | some df =>
      let dataOffset := data.d0 * data.d1 * data.d2 * data.d3 * image
      let temp := vol2row P (fun l => data.mem (dataOffset + l)) data.d0 data.d1 data.d2
        data.d3 df.d0 df.d1 df.d2 st2.tempMem
      { st2 with
          tempMem := temp,
          derFiltersMem := forLoop
            (derFiltersGroupStep numOutputPixels numFiltersPerGroup filtersVolume temp
              derOutput.mem derOutputOffset (if 0 < image then 1 else 0)) numGroups
            st2.derFiltersMem }
  | none => st2

/-- Initial backward state: the destination tensors' prior contents (never
pre-zeroed by the pipeline) and the initial workspace contents. -/
def initState (derData derFilters derBiases : Option Tensor) (temp0 : Nat → ℚ) : BwdState :=
  { derDataMem := (match derData with | some dd => dd.mem | none => fun _ => 0),
    derFiltersMem := (match derFilters with | some df => df.mem | none => fun _ => 0),
    derBiasesMem := (match derBiases with | some db => db.mem | none => fun _ => 0),
    tempMem := temp0 }

/-- The backward pipeline `nnconv3d_backward_blas` (source lines 159-304).
The source computes `numFiltersPerGroup = derOutput.getDimension(3) / numGroups`
unconditionally; when neither `derData` nor `derFilters` is supplied (and also
when the group division truncates to zero) `numGroups` is `0` and the
`ptrdiff_t` division is undefined behavior, modelled as `none`. -/
def nnconv3d_backward_blas (P : ConvParams) (derData derFilters derBiases : Option Tensor)
    (data filters derOutput : Tensor) (temp0 : Nat → ℚ) : Option BwdState :=
  let numOutputPixels := derOutput.d0 * derOutput.d1 * derOutput.d2
  let numGroups := backwardNumGroups derData derFilters data filters
  let filtersVolume := backwardFiltersVolume derData derFilters filters
  if numGroups = 0 then none
  else
    let numFiltersPerGroup := derOutput.d3 / numGroups
    some (forLoop
      (backwardImage P derData derFilters derBiases data filters derOutput numGroups
        numFiltersPerGroup filtersVolume numOutputPixels) derOutput.d4
      (initState derData derFilters derBiases temp0))

/-! ### Arithmetic and loop helper lemmas -/

lemma sum_range_mul_decomp (a b : Nat) (f : Nat → ℚ) :
    ∑ q ∈ Finset.range (a * b), f q
      = ∑ i ∈ Finset.range b, ∑ j ∈ Finset.range a, f (j + a * i) := by
  induction b with
  | zero => simp
  | succ n ih =>
      rw [Nat.mul_succ, Finset.sum_range_add, ih, Finset.sum_range_succ]
      exact congrArg _ (Finset.sum_congr rfl (fun j _ => by rw [Nat.add_comm]))

lemma add_mul_mod_eq (x r A : Nat) (hx : x < A) : (x + A * r) % A = x := by
  rw [Nat.add_mul_mod_self_left, Nat.mod_eq_of_lt hx]

lemma add_mul_div_eq (x r A : Nat) (hx : x < A) : (x + A * r) / A = r := by
  rw [Nat.add_mul_div_left _ _ (Nat.lt_of_le_of_lt (Nat.zero_le x) hx),
    Nat.div_eq_of_lt hx, Nat.zero_add]

lemma gemm_ff (m n k : Nat) (alpha : ℚ) (A : Nat → ℚ) (lda : Nat)
    (B : Nat → ℚ) (ldb : Nat) (beta : ℚ) (C : Nat → ℚ) (ldc coff idx : Nat) :
    gemm false false m n k alpha A lda B ldb beta C ldc coff idx =
      if coff ≤ idx ∧ (idx - coff) % ldc < m ∧ (idx - coff) / ldc < n then
        beta * C idx + alpha * ∑ l ∈ Finset.range k,
          A ((idx - coff) % ldc + lda * l) * B (l + ldb * ((idx - coff) / ldc))
      else C idx := rfl

lemma gemm_ft (m n k : Nat) (alpha : ℚ) (A : Nat → ℚ) (lda : Nat)
    (B : Nat → ℚ) (ldb : Nat) (beta : ℚ) (C : Nat → ℚ) (ldc coff idx : Nat) :
    gemm false true m n k alpha A lda B ldb beta C ldc coff idx =
      if coff ≤ idx ∧ (idx - coff) % ldc < m ∧ (idx - coff) / ldc < n then
        beta * C idx + alpha * ∑ l ∈ Finset.range k,
          A ((idx - coff) % ldc + lda * l) * B ((idx - coff) / ldc + ldb * l)
      else C idx := rfl

lemma gemm_tf (m n k : Nat) (alpha : ℚ) (A : Nat → ℚ) (lda : Nat)
    (B : Nat → ℚ) (ldb : Nat) (beta : ℚ) (C : Nat → ℚ) (ldc coff idx : Nat) :
    gemm true false m n k alpha A lda B ldb beta C ldc coff idx =
      if coff ≤ idx ∧ (idx - coff) % ldc < m ∧ (idx - coff) / ldc < n then
        beta * C idx + alpha * ∑ l ∈ Finset.range k,
          A (l + lda * ((idx - coff) % ldc)) * B (l + ldb * ((idx - coff) / ldc))
      else C idx := rfl

lemma gemm_ff_target (m n k : Nat) (alpha : ℚ) (A : Nat → ℚ) (lda : Nat)
    (B : Nat → ℚ) (ldb : Nat) (beta : ℚ) (C : Nat → ℚ) (ldc coff i j : Nat)
    (hi : i < m) (hm : m ≤ ldc) (hj : j < n) :
    gemm false false m n k alpha A lda B ldb beta C ldc coff (coff + (i + ldc * j)) =
      beta * C (coff + (i + ldc * j)) + alpha * ∑ l ∈ Finset.range k,
        A (i + lda * l) * B (l + ldb * j) := by
  have hi' : i < ldc := Nat.lt_of_lt_of_le hi hm
  simp only [gemm_ff, Nat.add_sub_cancel_left]
  rw [add_mul_mod_eq i j ldc hi', add_mul_div_eq i j ldc hi']
  rw [if_pos ⟨Nat.le_add_right _ _, hi, hj⟩]

lemma gemm_ft_target (m n k : Nat) (alpha : ℚ) (A : Nat → ℚ) (lda : Nat)
    (B : Nat → ℚ) (ldb : Nat) (beta : ℚ) (C : Nat → ℚ) (ldc coff i j : Nat)
    (hi : i < m) (hm : m ≤ ldc) (hj : j < n) :
    gemm false true m n k alpha A lda B ldb beta C ldc coff (coff + (i + ldc * j)) =
      beta * C (coff + (i + ldc * j)) + alpha * ∑ l ∈ Finset.range k,
        A (i + lda * l) * B (j + ldb * l) := by
  have hi' : i < ldc := Nat.lt_of_lt_of_le hi hm
  simp only [gemm_ft, Nat.add_sub_cancel_left]
  rw [add_mul_mod_eq i j ldc hi', add_mul_div_eq i j ldc hi']
  rw [if_pos ⟨Nat.le_add_right _ _, hi, hj⟩]

lemma gemm_tf_target (m n k : Nat) (alpha : ℚ) (A : Nat → ℚ) (lda : Nat)
    (B : Nat → ℚ) (ldb : Nat) (beta : ℚ) (C : Nat → ℚ) (ldc coff i j : Nat)
    (hi : i < m) (hm : m ≤ ldc) (hj : j < n) :
    gemm true false m n k alpha A lda B ldb beta C ldc coff (coff + (i + ldc * j)) =
      beta * C (coff + (i + ldc * j)) + alpha * ∑ l ∈ Finset.range k,
        A (l + lda * i) * B (l + ldb * j) := by
  have hi' : i < ldc := Nat.lt_of_lt_of_le hi hm
  simp only [gemm_tf, Nat.add_sub_cancel_left]
  rw [add_mul_mod_eq i j ldc hi', add_mul_div_eq i j ldc hi']
  rw [if_pos ⟨Nat.le_add_right _ _, hi, hj⟩]

lemma gemm_untouched_low (tA tB : Bool) (m n k : Nat) (alpha : ℚ) (A : Nat → ℚ) (lda : Nat)
    (B : Nat → ℚ) (ldb : Nat) (beta : ℚ) (C : Nat → ℚ) (ldc coff idx : Nat)
    (h : idx < coff) :
    gemm tA tB m n k alpha A lda B ldb beta C ldc coff idx = C idx := by
  simp only [gemm]
  rw [if_neg]
  rintro ⟨h1, -, -⟩
  omega

lemma gemm_untouched_high (tA tB : Bool) (m n k : Nat) (alpha : ℚ) (A : Nat → ℚ) (lda : Nat)
    (B : Nat → ℚ) (ldb : Nat) (beta : ℚ) (C : Nat → ℚ) (ldc coff idx : Nat)
    (hldc : 0 < ldc) (h : coff + ldc * n ≤ idx) :
    gemm tA tB m n k alpha A lda B ldb beta C ldc coff idx = C idx := by
  simp only [gemm]
  rw [if_neg]
  rintro ⟨h1, -, h3⟩
  have hc : n * ldc ≤ idx - coff := by rw [Nat.mul_comm]; omega
  have := (Nat.le_div_iff_mul_le hldc).mpr hc
  omega

lemma forLoop_untouched (f : Nat → (Nat → ℚ) → (Nat → ℚ)) (idx m n : Nat) (C : Nat → ℚ)
    (hmn : m ≤ n) (h : ∀ g mem, m ≤ g → g < n → f g mem idx = mem idx) :
    forLoop f n C idx = forLoop f m C idx := by
  induction n with
  | zero =>
      have hm : m = 0 := by omega
      rw [hm]
  | succ n ih =>
      rcases Nat.eq_or_lt_of_le hmn with he | hl
      · rw [he]
      · have hmn' : m ≤ n := by omega
        show f n (forLoop f n C) idx = _
        rw [h n _ hmn' (by omega), ih hmn' (fun g mem hg1 hg2 => h g mem hg1 (by omega))]

lemma forLoop_single (f : Nat → (Nat → ℚ) → (Nat → ℚ)) (idx g n : Nat) (C : Nat → ℚ)
    (hg : g < n)
    (h : ∀ g' mem, g' < n → g' ≠ g → f g' mem idx = mem idx) :
    forLoop f n C idx = f g (forLoop f g C) idx := by
  have h1 : forLoop f n C idx = forLoop f (g + 1) C idx :=
    forLoop_untouched f idx (g + 1) n C hg (fun g' mem hg1 hg2 => h g' mem hg2 (by omega))
  rw [h1]
  rfl

lemma forLoop_all_untouched (f : Nat → (Nat → ℚ) → (Nat → ℚ)) (idx n : Nat) (C : Nat → ℚ)
    (h : ∀ g mem, g < n → f g mem idx = mem idx) :
    forLoop f n C idx = C idx :=
  forLoop_untouched f idx 0 n C (Nat.zero_le n) (fun g mem _ hg2 => h g mem hg2)

lemma vol2row_apply (P : ConvParams) (src : Nat → ℚ) (dH dW dT dC fH fW fT : Nat)
    (temp0 : Nat → ℚ) (p col : Nat) (hp : p < nOutPix P dH dW dT fH fW fT)
    (hcol : col < fH * fW * fT * dC) :
    vol2row P src dH dW dT dC fH fW fT temp0 (p + nOutPix P dH dW dT fH fW fT * col) =
      (match unfoldTarget P dH dW dT fH fW fT p col with
       | some l => src l
       | none => 0) := by
  have hin : p + nOutPix P dH dW dT fH fW fT * col
      < nOutPix P dH dW dT fH fW fT * (fH * fW * fT * dC) := by
    have h2 : nOutPix P dH dW dT fH fW fT * (col + 1)
        ≤ nOutPix P dH dW dT fH fW fT * (fH * fW * fT * dC) :=
      Nat.mul_le_mul (Nat.le_refl _) hcol
    have h3 : nOutPix P dH dW dT fH fW fT * (col + 1)
        = nOutPix P dH dW dT fH fW fT * col + nOutPix P dH dW dT fH fW fT := by ring
    omega
  simp only [vol2row]
  rw [if_pos hin, add_mul_mod_eq p col _ hp, add_mul_div_eq p col _ hp]

lemma vol2row_untouched (P : ConvParams) (src : Nat → ℚ) (dH dW dT dC fH fW fT : Nat)
    (temp0 : Nat → ℚ) (idx : Nat)
    (h : nOutPix P dH dW dT fH fW fT * (fH * fW * fT * dC) ≤ idx) :
    vol2row P src dH dW dT dC fH fW fT temp0 idx = temp0 idx := by
  simp only [vol2row]
  rw [if_neg (by omega)]

lemma row2vol_apply (P : ConvParams) (dst : Nat → ℚ) (dstOff : Nat)
    (dH dW dT dC fH fW fT : Nat) (src : Nat → ℚ) (loc : Nat)
    (hloc : loc < dH * dW * dT * dC) :
    row2vol P dst dstOff dH dW dT dC fH fW fT src (dstOff + loc) =
      ∑ p ∈ Finset.range (nOutPix P dH dW dT fH fW fT),
        ∑ col ∈ Finset.range (fH * fW * fT * dC),
          if unfoldTarget P dH dW dT fH fW fT p col = some loc
          then src (p + nOutPix P dH dW dT fH fW fT * col) else 0 := by
  simp only [row2vol, Nat.add_sub_cancel_left]
  rw [if_pos ⟨Nat.le_add_right _ _, hloc⟩]

lemma row2vol_untouched (P : ConvParams) (dst : Nat → ℚ) (dstOff : Nat)
    (dH dW dT dC fH fW fT : Nat) (src : Nat → ℚ) (idx : Nat)
    (h : idx < dstOff ∨ dstOff + dH * dW * dT * dC ≤ idx) :
    row2vol P dst dstOff dH dW dT dC fH fW fT src idx = dst idx := by
  simp only [row2vol]
  rw [if_neg]
  rintro ⟨h1, h2⟩
  omega

/-! ### Error kinds, shape planning, scalar declarations, execution traces -/

/-- Error kinds surfaced by the convolution engine (spec section 7). -/
inductive ConvError
  | shapeMismatch
  | outOfMemory
  | computeError
deriving DecidableEq, Repr

/-- Modelled from the spec: the Shape/Group Planner validation (spec section
4.1).  The dispatch layer above `nnconv3d_forward_blas` /
`nnconv3d_backward_blas` — the repository code that performs shape checking
before calling the BLAS kernels — is not among the analysed sources; per the
spec it computes `numGroups = inputChannels / filterInputChannels` and
`numFiltersPerGroup = totalFilters / numGroups` and fails with `ShapeMismatch`
if any division is non-exact. -/
def shapePlanner (inputChannels filterInputChannels totalFilters : Nat) :
    Except ConvError (Nat × Nat) :=
  if filterInputChannels ≠ 0 ∧ inputChannels % filterInputChannels = 0 then
    let numGroups := inputChannels / filterInputChannels
    if numGroups ≠ 0 ∧ totalFilters % numGroups = 0 then
      Except.ok (numGroups, totalFilters / numGroups)
    else Except.error ConvError.shapeMismatch
  else Except.error ConvError.shapeMismatch

/-- The two element types supported (`vl::Type`: single or double precision). -/
inductive DataTy
  | single
  | double
deriving DecidableEq

/-- The C scalar types a scale factor can be declared with. -/
inductive CScalarTy
  | cfloat
  | cdouble
deriving DecidableEq

/-- `DataTypeTraits<dataType>::type`: the C scalar type of the tensor element
type. -/
def elemType : DataTy → CScalarTy
  | DataTy.single => CScalarTy.cfloat
  | DataTy.double => CScalarTy.cdouble

/-- Declared C types of `(alpha, beta)` at the forward per-group multiply
(source lines 127-128: `type alpha = dataMult ; type beta = outputMult ;`). -/
def forwardGroupScalarDecl (dt : DataTy) : CScalarTy × CScalarTy := (elemType dt, elemType dt)

/-- Declared C types of `(alpha, beta)` at the forward bias broadcast
(source lines 141-142: `type alpha = 1 ; type beta = 1 ;`). -/
def forwardBiasScalarDecl (dt : DataTy) : CScalarTy × CScalarTy := (elemType dt, elemType dt)

/-- Declared C types of `(alpha, beta)` at the bias-gradient reduction
(source lines 227-228: `type alpha = 1 ; type beta = (image > 0) ;`). -/
def backwardBiasScalarDecl (dt : DataTy) : CScalarTy × CScalarTy := (elemType dt, elemType dt)

/-- Declared C types of `(alpha, beta)` at the input-gradient per-group multiply
(source lines 248-249: `float alpha = 1 ; float beta = 0 ;` — single-precision
`float`, not the element type `type`). -/
def backwardDerDataScalarDecl (_dt : DataTy) : CScalarTy × CScalarTy :=
  (CScalarTy.cfloat, CScalarTy.cfloat)

/-- Declared C types of `(alpha, beta)` at the filter-gradient per-group
multiply (source lines 287-288: `type alpha = 1 ; type beta = (image > 0) ;`). -/
def backwardDerFiltersScalarDecl (dt : DataTy) : CScalarTy × CScalarTy := (elemType dt, elemType dt)

/-- The externally-visible stages of one forward or backward call, in program
order: resource acquisition, then per image the unfold / multiply / fold /
reduce primitives. -/
inductive Step
  | acquire
  | acquireOnes
  | acquireWs
  | unfoldStep (image : Nat)
  | mulStep (image g : Nat)
  | biasMulStep (image : Nat)
  | biasRedStep (image : Nat)
  | ddMulStep (image g : Nat)
  | foldStep (image : Nat)
  | dfUnfoldStep (image : Nat)
  | dfMulStep (image g : Nat)
deriving DecidableEq, Repr

/-- Stage order of the forward pipeline (source lines 100-153): the combined
workspace/ones acquisition, then per image the unfold, the per-group
multiplies, and the optional bias multiply. -/
def forwardSteps (numGroups : Nat) (hasBias : Bool) (batch : Nat) : List Step :=
  Step.acquire ::
    ((List.range batch).map (fun image =>
      Step.unfoldStep image :: ((List.range numGroups).map (Step.mulStep image) ++
        (if hasBias then [Step.biasMulStep image] else [])))).flatten

/-- Stage order of the backward pipeline (source lines 185-300): the ones
acquisition when the bias gradient is requested, the workspace acquisition when
the scratch volume is nonzero, then per image the bias reduction, the
input-gradient multiplies and fold, and the filter-gradient unfold and
multiplies, for the requested subsets. -/
def backwardSteps (hasDB hasDD hasDF hasWs : Bool) (numGroups : Nat) (batch : Nat) : List Step :=
  (if hasDB then [Step.acquireOnes] else []) ++
    (if hasWs then [Step.acquireWs] else []) ++
    ((List.range batch).map (fun image =>
      (if hasDB then [Step.biasRedStep image] else []) ++
        (if hasDD then (List.range numGroups).map (Step.ddMulStep image) ++ [Step.foldStep image]
          else []) ++
        (if hasDF then Step.dfUnfoldStep image :: (List.range numGroups).map (Step.dfMulStep image)
          else []))).flatten

/-- Sequential execution with eager error propagation, transcribing the
`goto done` / early-`return` error handling of the source: the stages run in
order; the first stage that fails ends the run — no later stage executes — and
its error is the returned status; on no failure the status is success. The
result is the list of executed stages and the final status. -/
def runSteps (oracle : Step → Option ConvError) : List Step → List Step × Option ConvError
  | [] => ([], none)
  | s :: rest =>
    match oracle s with
    | some e => ([s], some e)
    | none =>
      let r := runSteps oracle rest
      (s :: r.1, r.2)

lemma runSteps_prefix_fail (oracle : Step → Option ConvError) (pre : List Step) (s : Step)
    (post : List Step) (e : ConvError)
    (hpre : ∀ t ∈ pre, oracle t = none) (hs : oracle s = some e) :
    runSteps oracle (pre ++ s :: post) = (pre ++ [s], some e) := by
  induction pre with
  | nil => simp [runSteps, hs]
  | cons a l ih =>
      have ha : oracle a = none := hpre a (by simp)
      simp [runSteps, ha, ih (fun t ht => hpre t (by simp [ht]))]

/-! ### Claim C5, C6, C7, C9, C10 theorems -/

/-- C5: a per-group filter input-channel count that does not exactly divide the
data's input-channel count, or a total filter count that does not exactly
divide by the group count, makes the shape planner fail with `ShapeMismatch`
(no undefined behavior, no silently wrong result). -/
theorem C5_nonexact_division_shapeMismatch (inputChannels filterInputChannels totalFilters : Nat)
    (h : inputChannels % filterInputChannels ≠ 0 ∨
      totalFilters % (inputChannels / filterInputChannels) ≠ 0) :
    shapePlanner inputChannels filterInputChannels totalFilters
      = Except.error ConvError.shapeMismatch := by
  unfold shapePlanner
  rcases h with h | h
  · rw [if_neg (by tauto)]
  · by_cases hc : filterInputChannels ≠ 0 ∧ inputChannels % filterInputChannels = 0
    · rw [if_pos hc, if_neg (by tauto)]
    · rw [if_neg hc]

/-- Witness for C5 at channels 3, per-group channels 2, 5 filters. -/
theorem C5_witness :
    (3 % 2 ≠ 0 ∨ 5 % (3 / 2) ≠ 0) ∧
      shapePlanner 3 2 5 = Except.error ConvError.shapeMismatch :=
  ⟨by decide, C5_nonexact_division_shapeMismatch 3 2 5 (by decide)⟩

/-- C6 is false as stated: at double precision the input-gradient branch's
per-group multiply declares its scale factors as single-precision `float`
(source lines 248-249), not as the element type. -/
theorem C6_counterexample :
    ¬ backwardDerDataScalarDecl DataTy.double
        = (elemType DataTy.double, elemType DataTy.double) := by
  decide

/-- C6 (amended): every multiply/reduce call site of the forward and backward
pipelines declares its alpha and beta scale factors with the tensor element
type, except the input-gradient branch's per-group multiply, which declares
them as single-precision `float` (values 1 and 0) for either element type. -/
theorem C6_amended_scalar_decls (dt : DataTy) :
    forwardGroupScalarDecl dt = (elemType dt, elemType dt) ∧
      forwardBiasScalarDecl dt = (elemType dt, elemType dt) ∧
      backwardBiasScalarDecl dt = (elemType dt, elemType dt) ∧
      backwardDerFiltersScalarDecl dt = (elemType dt, elemType dt) ∧
      backwardDerDataScalarDecl dt = (CScalarTy.cfloat, CScalarTy.cfloat) :=
  ⟨rfl, rfl, rfl, rfl, rfl⟩

/-- Concrete shapes for the C7 counterexample: the filters tensor implies
filter volume 8, the filter-gradient destination implies filter volume 1. -/
def C7derData : Tensor := ⟨1, 1, 1, 2, 1, fun _ => 0⟩

def C7derFilters : Tensor := ⟨1, 1, 1, 1, 2, fun _ => 0⟩

def C7filters : Tensor := ⟨2, 2, 2, 1, 2, fun _ => 0⟩

def C7data : Tensor := ⟨2, 2, 2, 2, 1, fun _ => 0⟩

def C7derOutput : Tensor := ⟨1, 1, 1, 2, 0, fun _ => 0⟩

def C7P : ConvParams := ⟨1, 1, 1, 0, 0, 0, 0, 0⟩

/-- C7 is false as stated: with both gradient destinations supplied and
disagreeing implied filter volumes (8 from `filters`, 1 from the
filter-gradient tensor), the backward call derives its shared quantities from
the input-gradient request and succeeds — the disagreement is not rejected. -/
theorem C7_counterexample :
    backwardFiltersVolume (some C7derData) (some C7derFilters) C7filters = 8 ∧
      fVol C7derFilters = 1 ∧
      (nnconv3d_backward_blas C7P (some C7derData) (some C7derFilters) none C7data C7filters
          C7derOutput (fun _ => 0)).isSome = true := by
  refine ⟨rfl, rfl, ?_⟩
  rfl

/-- C7 (amended): when both the input-gradient and the filter-gradient
destinations are supplied, the shared quantities (group count, filter volume)
are derived from the input-gradient request alone — the `else if` gives
`derData` precedence — and no agreement check is performed: the call proceeds
regardless of the filter volume implied by the filter-gradient tensor, whose
agreement is the caller's obligation. -/
theorem C7_amended_derData_precedence (P : ConvParams)
    (derBiases : Option Tensor) (ddT dfT data filters derOutput : Tensor) (temp0 : Nat → ℚ) :
    backwardNumGroups (some ddT) (some dfT) data filters = ddT.d3 / filters.d3 ∧
      backwardFiltersVolume (some ddT) (some dfT) filters = fVol filters ∧
      ((nnconv3d_backward_blas P (some ddT) (some dfT) derBiases data filters derOutput
          temp0).isSome = true ↔ ddT.d3 / filters.d3 ≠ 0) := by
  refine ⟨rfl, rfl, ?_⟩
  by_cases h : ddT.d3 / filters.d3 = 0
  · simp [nnconv3d_backward_blas, backwardNumGroups, h]
  · simp [nnconv3d_backward_blas, backwardNumGroups, h]

/-- C9: in both pipelines, the first failing stage (workspace/ones acquisition
or an unfold, fold, multiply, reduce primitive) stops execution at once — no
later stage of the same image and no later image runs — and its error is
surfaced as the returned status, with no retry and no suppression. -/
theorem C9_first_failure_stops
    (oracle : Step → Option ConvError) (pre : List Step) (s : Step) (post : List Step)
    (e : ConvError) (numGroups batch : Nat) (hasBias hasDB hasDD hasDF hasWs : Bool)
    (hpre : ∀ t ∈ pre, oracle t = none) (hs : oracle s = some e) :
    (forwardSteps numGroups hasBias batch = pre ++ s :: post →
      runSteps oracle (forwardSteps numGroups hasBias batch) = (pre ++ [s], some e)) ∧
    (backwardSteps hasDB hasDD hasDF hasWs numGroups batch = pre ++ s :: post →
      runSteps oracle (backwardSteps hasDB hasDD hasDF hasWs numGroups batch)
        = (pre ++ [s], some e)) := by
  constructor
  · intro h
    rw [h]
    exact runSteps_prefix_fail oracle pre s post e hpre hs
  · intro h
    rw [h]
    exact runSteps_prefix_fail oracle pre s post e hpre hs

/-- Oracle for the C9 witness: the unfold of image 0 fails, everything else
succeeds. -/
def C9oracle : Step → Option ConvError :=
  fun t => if t = Step.unfoldStep 0 then some ConvError.computeError else none

/-- Witness for C9: in a 2-image forward call whose first unfold fails, only
the acquisition and that unfold execute, and the error is returned. -/
theorem C9_witness :
    runSteps C9oracle (forwardSteps 1 false 2)
      = ([Step.acquire, Step.unfoldStep 0], some ConvError.computeError) :=
  (C9_first_failure_stops C9oracle [Step.acquire] (Step.unfoldStep 0)
    [Step.mulStep 0 0, Step.unfoldStep 1, Step.mulStep 1 0] ConvError.computeError 1 2
    false false false false false (by decide) (by decide)).1 (by decide)

/-- C10: the claim's requirement is right and the code violates it — when only
the bias gradient is requested, `numGroups` stays `0` and the source divides
`derOutput.getDimension(3)` by it (line 208), which is undefined behavior; the
modelled call therefore fails instead of being total. -/
theorem C10_biasOnly_divides_by_zero (P : ConvParams) (derBiases : Tensor)
    (data filters derOutput : Tensor) (temp0 : Nat → ℚ) :
    nnconv3d_backward_blas P none none (some derBiases) data filters derOutput temp0 = none := by
  rfl

/-! ### Claim C2: bias gradient -/

/-- Unit strides, no padding: default parameters for concrete instances. -/
def Pdefault : ConvParams := ⟨1, 1, 1, 0, 0, 0, 0, 0⟩

def C2derBiases : Tensor := ⟨1, 1, 1, 1, 1, fun _ => 0⟩

def C2derOutput : Tensor := ⟨1, 1, 1, 1, 1, fun _ => 4⟩

def C2aux : Tensor := ⟨1, 1, 1, 1, 1, fun _ => 0⟩

/-- C2 is false as stated for a bias-only backward call: with input-gradient and
filter-gradient destinations both absent, the call divides by zero (undefined
behavior, modelled as `none`) before any bias reduction runs, so no bias
gradient is produced at all. -/
theorem C2_counterexample :
    nnconv3d_backward_blas Pdefault none none (some C2derBiases) C2aux C2aux C2derOutput
      (fun _ => 0) = none := rfl

lemma backwardImage_derBiasesMem (P : ConvParams) (derData derFilters : Option Tensor)
    (db data filters derOutput : Tensor) (nG nFPG fV : Nat) (image : Nat) (st : BwdState) :
    (backwardImage P derData derFilters (some db) data filters derOutput nG nFPG fV
        (derOutput.d0 * derOutput.d1 * derOutput.d2) image st).derBiasesMem
      = gemvT (derOutput.d0 * derOutput.d1 * derOutput.d2) (getDepth derOutput) 1
          (fun i => derOutput.mem
            (derOutput.d0 * derOutput.d1 * derOutput.d2 * derOutput.d3 * image + i))
          (derOutput.d0 * derOutput.d1 * derOutput.d2) allOnes
          (if 0 < image then 1 else 0) st.derBiasesMem := by
  cases derData <;> cases derFilters <;> rfl

lemma biasLoop_eq (P : ConvParams) (derData derFilters : Option Tensor)
    (db data filters derOutput : Tensor) (nG nFPG fV : Nat) (st0 : BwdState) (ch : Nat)
    (hch : ch < getDepth derOutput) (n : Nat) (hn : 0 < n) :
    (forLoop (backwardImage P derData derFilters (some db) data filters derOutput nG nFPG fV
        (derOutput.d0 * derOutput.d1 * derOutput.d2)) n st0).derBiasesMem ch
      = ∑ image ∈ Finset.range n,
          ∑ p ∈ Finset.range (derOutput.d0 * derOutput.d1 * derOutput.d2),
            derOutput.mem (derOutput.d0 * derOutput.d1 * derOutput.d2 * derOutput.d3 * image
              + (p + derOutput.d0 * derOutput.d1 * derOutput.d2 * ch)) := by
  induction n with
  | zero => omega
  | succ n ih =>
      show (backwardImage P derData derFilters (some db) data filters derOutput nG nFPG fV
        (derOutput.d0 * derOutput.d1 * derOutput.d2) n
          (forLoop _ n st0)).derBiasesMem ch = _
      rw [backwardImage_derBiasesMem]
      rcases Nat.eq_zero_or_pos n with h0 | hpos
      · subst h0
        simp [gemvT, hch, allOnes]
      · rw [Finset.sum_range_succ, ← ih hpos]
        simp [gemvT, hch, allOnes, hpos, Nat.pos_iff_ne_zero.mp hpos]

/-- C2 (amended): for every backward call that supplies a bias-gradient
destination and whose grouped-shape planning yields a nonzero group count (in
particular, at least one of the input-gradient and filter-gradient
destinations is also supplied; a bias-only call divides by zero, see the C2
counterexample and C10), with a nonempty batch, the resulting bias gradient of each output channel
is the sum of the output gradient over all spatial positions and all batch
images — overwrite on the first image, accumulate thereafter, so the
destination need not be pre-zeroed. -/
theorem C2_amended_biasGrad (P : ConvParams) (derData derFilters : Option Tensor)
    (derBiases data filters derOutput : Tensor) (temp0 : Nat → ℚ) (ch : Nat)
    (hch : ch < getDepth derOutput)
    (hbatch : 0 < derOutput.d4)
    (hnG : backwardNumGroups derData derFilters data filters ≠ 0) :
    (nnconv3d_backward_blas P derData derFilters (some derBiases) data filters derOutput
        temp0).map (fun st => st.derBiasesMem ch)
      = some (∑ image ∈ Finset.range derOutput.d4,
          ∑ p ∈ Finset.range (derOutput.d0 * derOutput.d1 * derOutput.d2),
            derOutput.mem (derOutput.d0 * derOutput.d1 * derOutput.d2 * derOutput.d3 * image
              + (p + derOutput.d0 * derOutput.d1 * derOutput.d2 * ch))) := by
  simp only [nnconv3d_backward_blas]
  rw [if_neg hnG]
  rw [Option.map_some']
  exact congrArg some (biasLoop_eq P derData derFilters derBiases data filters derOutput _ _ _
    _ ch hch derOutput.d4 hbatch)

def C2df : Tensor := ⟨2, 1, 1, 1, 1, fun _ => 0⟩

def C2db : Tensor := ⟨1, 1, 1, 1, 1, fun _ => 55⟩

def C2data2 : Tensor := ⟨2, 1, 1, 1, 2, fun i => if i = 0 then 3 else if i = 1 then 5 else
  if i = 2 then 1 else if i = 3 then 2 else 0⟩

def C2filt : Tensor := ⟨2, 1, 1, 1, 1, fun i => if i = 0 then 2 else 7⟩

def C2derOut2 : Tensor := ⟨1, 1, 1, 1, 2, fun i => if i = 0 then 4 else 9⟩

/-- Witness for C2 (amended): a 2-image filter-gradient-plus-bias call whose
output gradients are 4 and 9 yields bias gradient 13 even though the
destination held 55 beforehand. -/
theorem C2_witness :
    (nnconv3d_backward_blas Pdefault none (some C2df) (some C2db) C2data2 C2filt C2derOut2
        (fun _ => 99)).map (fun st => st.derBiasesMem 0) = some 13 := by
  rw [C2_amended_biasGrad Pdefault none (some C2df) C2db C2data2 C2filt C2derOut2 (fun _ => 99) 0
    (by decide) (by decide) (by decide)]
  norm_num [Finset.sum_range_succ, C2derOut2]

/-! ### Claim C8: grouped sub-block addressing -/

lemma block_index_lt (i l A B : Nat) (hi : i < A) (hl : l < B) : i + A * l < A * B := by
  have h4 : i + A * l < A * (l + 1) := by rw [Nat.mul_succ]; omega
  exact Nat.lt_of_lt_of_le h4 (Nat.mul_le_mul (Nat.le_refl _) hl)

/-- C8: in each grouped multiply of the forward and backward pipelines, group
`g`'s sub-blocks sit at offset `g` times the fixed per-buffer strides
(`fV*nFPG` for the filter bank, `nOP*fV` for the patch matrix, `nOP*nFPG` for
output and output-gradient, as in the step definitions), and the multiply of
group `g` neither reads nor writes another group's sub-block: its result is
unchanged when the operand buffers are altered anywhere outside group `g`'s
sub-blocks (first three conjuncts), and it leaves every destination cell
outside group `g`'s destination sub-block untouched (last three conjuncts). -/
theorem C8_group_block_isolation (nOP nFPG fV : Nat) (dataMult outputMult beta : ℚ)
    (temp temp2 filtersMem filtersMem2 derOutMem derOutMem2 : Nat → ℚ)
    (outputOffset derOutputOffset g : Nat) (out dF tmpDst : Nat → ℚ) (idx : Nat)
    (htemp : ∀ i, i < nOP * fV → temp (nOP * fV * g + i) = temp2 (nOP * fV * g + i))
    (hfilt : ∀ i, i < fV * nFPG → filtersMem (fV * nFPG * g + i) = filtersMem2 (fV * nFPG * g + i))
    (hder : ∀ i, i < nOP * nFPG → derOutMem (derOutputOffset + nOP * nFPG * g + i)
      = derOutMem2 (derOutputOffset + nOP * nFPG * g + i)) :
    (forwardGroupStep nOP nFPG fV dataMult outputMult temp filtersMem outputOffset g out idx
      = forwardGroupStep nOP nFPG fV dataMult outputMult temp2 filtersMem2 outputOffset g out idx) ∧
    (derDataGroupStep nOP nFPG fV derOutMem filtersMem derOutputOffset g tmpDst idx
      = derDataGroupStep nOP nFPG fV derOutMem2 filtersMem2 derOutputOffset g tmpDst idx) ∧
    (derFiltersGroupStep nOP nFPG fV temp derOutMem derOutputOffset beta g dF idx
      = derFiltersGroupStep nOP nFPG fV temp2 derOutMem2 derOutputOffset beta g dF idx) ∧
    ((∀ p j, p < nOP → j < nFPG → idx ≠ outputOffset + nOP * nFPG * g + (p + nOP * j)) →
      forwardGroupStep nOP nFPG fV dataMult outputMult temp filtersMem outputOffset g out idx
        = out idx) ∧
    ((∀ p q, p < nOP → q < fV → idx ≠ nOP * fV * g + (p + nOP * q)) →
      derDataGroupStep nOP nFPG fV derOutMem filtersMem derOutputOffset g tmpDst idx
        = tmpDst idx) ∧
    ((∀ q j, q < fV → j < nFPG → idx ≠ fV * nFPG * g + (q + fV * j)) →
      derFiltersGroupStep nOP nFPG fV temp derOutMem derOutputOffset beta g dF idx = dF idx) := by
  refine ⟨?_, ?_, ?_, ?_, ?_, ?_⟩
  · simp only [forwardGroupStep, gemm_ff]
    split_ifs with h
    · rcases h with ⟨h1, h2, h3⟩
      congr 2
      refine Finset.sum_congr rfl (fun l hl => ?_)
      rw [htemp _ (block_index_lt _ _ _ _ h2 (Finset.mem_range.mp hl)),
        hfilt _ (block_index_lt _ _ _ _ (Finset.mem_range.mp hl) h3)]
    · rfl
  · simp only [derDataGroupStep, gemm_ft]
    split_ifs with h
    · rcases h with ⟨h1, h2, h3⟩
      congr 2
      refine Finset.sum_congr rfl (fun l hl => ?_)
      rw [hder _ (block_index_lt _ _ _ _ h2 (Finset.mem_range.mp hl)),
        hfilt _ (block_index_lt _ _ _ _ h3 (Finset.mem_range.mp hl))]
    · rfl
  · simp only [derFiltersGroupStep, gemm_tf]
    split_ifs with h
    · rcases h with ⟨h1, h2, h3⟩
      congr 2
      refine Finset.sum_congr rfl (fun l hl => ?_)
      have hl2 := Finset.mem_range.mp hl
      rw [htemp (l + nOP * ((idx - fV * nFPG * g) % fV)) (block_index_lt _ _ _ _ hl2 h2),
        hder (l + nOP * ((idx - fV * nFPG * g) / fV)) (block_index_lt _ _ _ _ hl2 h3)]
    · rfl
  · intro hno
    simp only [forwardGroupStep, gemm_ff]
    rw [if_neg]
    rintro ⟨h1, h2, h3⟩
    refine hno _ _ h2 h3 ?_
    have hdm := Nat.div_add_mod (idx - (outputOffset + nOP * nFPG * g)) nOP
    omega
  · intro hno
    simp only [derDataGroupStep, gemm_ft]
    rw [if_neg]
    rintro ⟨h1, h2, h3⟩
    refine hno _ _ h2 h3 ?_
    have hdm := Nat.div_add_mod (idx - nOP * fV * g) nOP
    omega
  · intro hno
    simp only [derFiltersGroupStep, gemm_tf]
    rw [if_neg]
    rintro ⟨h1, h2, h3⟩
    refine hno _ _ h2 h3 ?_
    have hdm := Nat.div_add_mod (idx - fV * nFPG * g) fV
    omega

/-- Witness for C8: with all dimensions 1 and group 0, the forward group
multiply leaves cell 6 — outside its destination sub-block — untouched. -/
theorem C8_witness :
    forwardGroupStep 1 1 1 2 3 (fun _ => 5) (fun _ => 7) 0 0 (fun _ => 11) 6
      = (fun _ : Nat => (11 : ℚ)) 6 :=
  (C8_group_block_isolation 1 1 1 2 3 0 (fun _ => 5) (fun _ => 5) (fun _ => 7) (fun _ => 7)
    (fun _ => 13) (fun _ => 13) 0 0 0 (fun _ => 11) (fun _ => 11) (fun _ => 11) 6
    (fun _ _ => rfl) (fun _ _ => rfl) (fun _ _ => rfl)).2.2.2.1
    (fun p j hp hj => by omega)

/-! ### Shared helpers for the pipeline correctness claims -/

lemma gemm_offgroup_untouched (tA tB : Bool) (m n k : Nat) (alpha : ℚ) (A : Nat → ℚ)
    (lda : Nat) (B : Nat → ℚ) (ldb : Nat) (beta : ℚ) (C : Nat → ℚ) (ldc : Nat)
    (base g g2 i idx coff : Nat) (hldc : 0 < ldc) (hi : i < ldc * n)
    (hidx : idx = base + ldc * n * g + i) (hcoff : coff = base + ldc * n * g2) (hne : g2 ≠ g) :
    gemm tA tB m n k alpha A lda B ldb beta C ldc coff idx = C idx := by
  rcases lt_or_gt_of_ne hne with hlt | hgt
  · apply gemm_untouched_high tA tB m n k alpha A lda B ldb beta C ldc coff idx hldc
    have h2 : ldc * n * (g2 + 1) ≤ ldc * n * g := Nat.mul_le_mul (Nat.le_refl _) hlt
    rw [Nat.mul_succ] at h2
    omega
  · apply gemm_untouched_low tA tB m n k alpha A lda B ldb beta C ldc coff idx
    have h2 : ldc * n * (g + 1) ≤ ldc * n * g2 := Nat.mul_le_mul (Nat.le_refl _) hgt
    rw [Nat.mul_succ] at h2
    omega

lemma vol2row_state_irrelevant (P : ConvParams) (src : Nat → ℚ) (dH dW dT dC fH fW fT : Nat)
    (t0 t1 : Nat → ℚ) (r : Nat)
    (hr : r < nOutPix P dH dW dT fH fW fT * (fH * fW * fT * dC)) :
    vol2row P src dH dW dT dC fH fW fT t0 r = vol2row P src dH dW dT dC fH fW fT t1 r := by
  simp only [vol2row]
  rw [if_pos hr, if_pos hr]

lemma unfoldTarget_lt (P : ConvParams) (dH dW dT dC : Nat) (fH fW fT : Nat) (p col l : Nat)
    (hcol : col < fH * fW * fT * dC)
    (h : unfoldTarget P dH dW dT fH fW fT p col = some l) : l < dH * dW * dT * dC := by
  simp only [unfoldTarget] at h
  split_ifs at h with hc
  · have hl := Option.some_inj.mp h
    have hfp : 0 < fH * fW * fT := by
      rcases Nat.eq_zero_or_pos (fH * fW * fT) with h0 | h0
      · rw [h0] at hcol
        omega
      · exact h0
    have hcnum : col / (fH * fW * fT) < dC := by
      rw [Nat.div_lt_iff_lt_mul hfp]
      have := Nat.mul_comm (fH * fW * fT) dC
      omega
    rcases hc with ⟨hc1, hc2, hc3, hc4, hc5, hc6⟩
    have hb1 : (p / (outDim dH fH P.strideY P.padTop P.padBottom) %
        outDim dW fW P.strideX P.padLeft P.padRight) * P.strideX + col / fH % fW - P.padLeft
        + dW * ((p / ((outDim dH fH P.strideY P.padTop P.padBottom) *
          (outDim dW fW P.strideX P.padLeft P.padRight))) * P.strideT + col / (fH * fW) % fT
            - P.padTime + dT * (col / (fH * fW * fT)))
        < dW * (dT * dC) := by
      apply block_index_lt _ _ _ _ hc4
      exact block_index_lt _ _ _ _ hc6 hcnum
    have hb0 := block_index_lt _ _ dH (dW * (dT * dC)) hc2 hb1
    have hassoc : dH * (dW * (dT * dC)) = dH * dW * dT * dC := by ring
    omega

/-! ### Claim C4: filter-gradient batch additivity -/

/-- The one-image slice of a tensor: same spatial and channel dimensions, batch
1, memory starting at the image's offset. -/
def sliceTensor (t : Tensor) (image : Nat) : Tensor :=
  ⟨t.d0, t.d1, t.d2, t.d3, 1, fun i => t.mem (t.d0 * t.d1 * t.d2 * t.d3 * image + i)⟩

/-- The filter-gradient memory of a backward result (`0` if the call failed). -/
def derFiltersOf (r : Option BwdState) (idx : Nat) : ℚ :=
  match r with
  | some st => st.derFiltersMem idx
  | none => 0

lemma backward_dfOnly_eq (P : ConvParams) (df data filters derOutput : Tensor)
    (temp0 : Nat → ℚ) (h : data.d3 / df.d3 ≠ 0) :
    nnconv3d_backward_blas P none (some df) none data filters derOutput temp0
      = some (forLoop (backwardImage P none (some df) none data filters derOutput
          (data.d3 / df.d3) (derOutput.d3 / (data.d3 / df.d3)) (fVol df)
          (derOutput.d0 * derOutput.d1 * derOutput.d2)) derOutput.d4
          (initState none (some df) none temp0)) := by
  simp only [nnconv3d_backward_blas, backwardNumGroups, backwardFiltersVolume]
  rw [if_neg h]

lemma backwardImage_dfOnly_derFiltersMem (P : ConvParams) (df data filters derOutput : Tensor)
    (nG nFPG fV nOP image : Nat) (st : BwdState) :
    (backwardImage P none (some df) none data filters derOutput nG nFPG fV nOP image
        st).derFiltersMem
      = forLoop (derFiltersGroupStep nOP nFPG fV
          (vol2row P (fun l => data.mem (data.d0 * data.d1 * data.d2 * data.d3 * image + l))
            data.d0 data.d1 data.d2 data.d3 df.d0 df.d1 df.d2 st.tempMem)
          derOutput.mem (derOutput.d0 * derOutput.d1 * derOutput.d2 * derOutput.d3 * image)
          (if 0 < image then 1 else 0)) nG st.derFiltersMem := rfl

lemma derFiltersLoop_value (nOP nFPG fV nG : Nat) (temp derOutMem : Nat → ℚ)
    (off : Nat) (beta : ℚ) (F : Nat → ℚ) (q g j : Nat)
    (hq : q < fV) (hg : g < nG) (hj : j < nFPG) :
    forLoop (derFiltersGroupStep nOP nFPG fV temp derOutMem off beta) nG F
        (fV * nFPG * g + (q + fV * j))
      = beta * F (fV * nFPG * g + (q + fV * j))
        + ∑ l ∈ Finset.range nOP,
            temp (nOP * fV * g + (l + nOP * q))
              * derOutMem (off + nOP * nFPG * g + (l + nOP * j)) := by
  have hfVpos : 0 < fV := by omega
  have hib : q + fV * j < fV * nFPG := block_index_lt q j fV nFPG hq hj
  rw [forLoop_single _ _ g nG F hg (fun g2 mem hg2 hne => by
    simp only [derFiltersGroupStep]
    exact gemm_offgroup_untouched true false fV nFPG nOP 1 _ nOP _ nOP beta mem fV 0 g g2
      (q + fV * j) _ _ hfVpos hib (by omega) (by omega) hne)]
  simp only [derFiltersGroupStep]
  rw [gemm_tf_target fV nFPG nOP 1 _ nOP _ nOP beta _ fV (fV * nFPG * g) q j hq
    (Nat.le_refl fV) hj]
  rw [forLoop_all_untouched _ _ g F (fun g2 mem hg2 => by
    simp only [derFiltersGroupStep]
    exact gemm_offgroup_untouched true false fV nFPG nOP 1 _ nOP _ nOP beta mem fV 0 g g2
      (q + fV * j) _ _ hfVpos hib (by omega) (by omega) (by omega))]
  simp only [one_mul]

lemma vol2row_src_congr (P : ConvParams) (src src2 : Nat → ℚ) (dH dW dT dC fH fW fT : Nat)
    (t0 t1 : Nat → ℚ) (r : Nat)
    (hr : r < nOutPix P dH dW dT fH fW fT * (fH * fW * fT * dC))
    (hsrc : ∀ l, src l = src2 l) :
    vol2row P src dH dW dT dC fH fW fT t0 r = vol2row P src2 dH dW dT dC fH fW fT t1 r := by
  simp only [vol2row]
  rw [if_pos hr, if_pos hr]
  cases unfoldTarget P dH dW dT fH fW fT (r % nOutPix P dH dW dT fH fW fT)
      (r / nOutPix P dH dW dT fH fW fT) with
  | none => rfl
  | some l => exact hsrc l

lemma forLoop_two {α : Type} (f : Nat → α → α) (s : α) : forLoop f 2 s = f 1 (f 0 s) := rfl

lemma forLoop_one {α : Type} (f : Nat → α → α) (s : α) : forLoop f 1 s = f 0 s := rfl

/-- C4: the filter gradient is additive over the batch — a backward call on a
2-image batch produces, at every filter-gradient cell, the sum of the values
produced by two independent 1-image calls on the image slices; per image and
per group the update is `patch_gᵀ · outputGrad_g` with overwrite on the first
image and accumulate thereafter. -/
theorem C4_filterGrad_batch_additive (P : ConvParams) (df data filters derOutput : Tensor)
    (temp0 : Nat → ℚ) (nG nFPG : Nat)
    (hnG : nG = data.d3 / df.d3) (hnFPG : nFPG = derOutput.d3 / nG)
    (hbatch : derOutput.d4 = 2)
    (hdd3 : data.d3 = df.d3 * nG)
    (hd0 : derOutput.d0 = outDim data.d0 df.d0 P.strideY P.padTop P.padBottom)
    (hd1 : derOutput.d1 = outDim data.d1 df.d1 P.strideX P.padLeft P.padRight)
    (hd2 : derOutput.d2 = outDim data.d2 df.d2 P.strideT P.padTime P.padTime)
    (q g j : Nat) (hq : q < fVol df) (hg : g < nG) (hj : j < nFPG) :
    derFiltersOf (nnconv3d_backward_blas P none (some df) none data filters derOutput temp0)
        (fVol df * nFPG * g + (q + fVol df * j))
      = derFiltersOf (nnconv3d_backward_blas P none (some df) none (sliceTensor data 0) filters
            (sliceTensor derOutput 0) temp0) (fVol df * nFPG * g + (q + fVol df * j))
        + derFiltersOf (nnconv3d_backward_blas P none (some df) none (sliceTensor data 1) filters
            (sliceTensor derOutput 1) temp0) (fVol df * nFPG * g + (q + fVol df * j)) := by
  have hnGpos : 0 < nG := by omega
  have hnz : data.d3 / df.d3 ≠ 0 := by omega
  have hnzs : (sliceTensor data 0).d3 / df.d3 ≠ 0 := hnz
  have hnzs1 : (sliceTensor data 1).d3 / df.d3 ≠ 0 := hnz
  rw [backward_dfOnly_eq P df data filters derOutput temp0 hnz,
    backward_dfOnly_eq P df (sliceTensor data 0) filters (sliceTensor derOutput 0) temp0 hnzs,
    backward_dfOnly_eq P df (sliceTensor data 1) filters (sliceTensor derOutput 1) temp0 hnzs1]
  simp only [derFiltersOf, sliceTensor, hbatch]
  rw [forLoop_two, forLoop_one, forLoop_one]
  rw [backwardImage_dfOnly_derFiltersMem, backwardImage_dfOnly_derFiltersMem,
    backwardImage_dfOnly_derFiltersMem]
  simp only [sliceTensor, ← hnG, ← hnFPG]
  rw [derFiltersLoop_value _ nFPG (fVol df) nG _ _ _ _ _ q g j hq hg hj,
    derFiltersLoop_value _ nFPG (fVol df) nG _ _ _ _ _ q g j hq hg hj,
    derFiltersLoop_value _ nFPG (fVol df) nG _ _ _ _ _ q g j hq hg hj]
  rw [backwardImage_dfOnly_derFiltersMem]
  rw [derFiltersLoop_value _ nFPG (fVol df) nG _ _ _ _ _ q g j hq hg hj]
  norm_num
  have hnOPe : derOutput.d0 * derOutput.d1 * derOutput.d2
      = nOutPix P data.d0 data.d1 data.d2 df.d0 df.d1 df.d2 := by
    rw [hd0, hd1, hd2]
    rfl
  refine Finset.sum_congr rfl (fun l hl => ?_)
  have hl2 := Finset.mem_range.mp hl
  have hin : l + derOutput.d0 * derOutput.d1 * derOutput.d2 * q
      < derOutput.d0 * derOutput.d1 * derOutput.d2 * fVol df :=
    block_index_lt _ _ _ _ hl2 hq
  have hblk := block_index_lt _ g _ nG hin hg
  have hcols : derOutput.d0 * derOutput.d1 * derOutput.d2 * fVol df * nG
      = nOutPix P data.d0 data.d1 data.d2 df.d0 df.d1 df.d2
        * (df.d0 * df.d1 * df.d2 * data.d3) := by
    rw [← hnOPe, hdd3]
    simp only [fVol]
    ring
  refine congrArg₂ (fun a b : ℚ => a * b) ?_ (congrArg derOutput.mem (by omega))
  exact vol2row_src_congr P _ _ data.d0 data.d1 data.d2 data.d3 df.d0 df.d1 df.d2 _ _ _
    (by omega) (fun t => rfl)

/-- Witness for C4: on the 2-image batch with data `[3,5 | 1,2]`, filter size 2
and output gradients `4` and `9`, the batch call's filter-gradient cell 0 holds
`21`, the two 1-image calls hold `12` and `9`, and the batch-additivity theorem
applies. -/
theorem C4_witness :
    derFiltersOf (nnconv3d_backward_blas Pdefault none (some C2df) none C2data2 C2filt
        C2derOut2 (fun _ => 99)) 0 = 21 ∧
    derFiltersOf (nnconv3d_backward_blas Pdefault none (some C2df) none
        (sliceTensor C2data2 0) C2filt (sliceTensor C2derOut2 0) (fun _ => 99)) 0 = 12 ∧
    derFiltersOf (nnconv3d_backward_blas Pdefault none (some C2df) none
        (sliceTensor C2data2 1) C2filt (sliceTensor C2derOut2 1) (fun _ => 99)) 0 = 9 ∧
    derFiltersOf (nnconv3d_backward_blas Pdefault none (some C2df) none C2data2 C2filt
        C2derOut2 (fun _ => 99)) 0
      = derFiltersOf (nnconv3d_backward_blas Pdefault none (some C2df) none
          (sliceTensor C2data2 0) C2filt (sliceTensor C2derOut2 0) (fun _ => 99)) 0
        + derFiltersOf (nnconv3d_backward_blas Pdefault none (some C2df) none
          (sliceTensor C2data2 1) C2filt (sliceTensor C2derOut2 1) (fun _ => 99)) 0 :=
  ⟨by
    norm_num [nnconv3d_backward_blas, backwardImage, initState, backwardNumGroups,
      backwardFiltersVolume, forLoop_two, forLoop_one, forLoop, derFiltersGroupStep, gemm,
      vol2row, unfoldTarget, nOutPix, outDim, gemvT, allOnes, getDepth, fVol, derFiltersOf,
      C2df, C2data2, C2filt, C2derOut2, Pdefault, Finset.sum_range_succ, Finset.sum_range_zero],
  by
    norm_num [nnconv3d_backward_blas, backwardImage, initState, backwardNumGroups,
      backwardFiltersVolume, forLoop_two, forLoop_one, forLoop, derFiltersGroupStep, gemm,
      vol2row, unfoldTarget, nOutPix, outDim, gemvT, allOnes, getDepth, fVol, derFiltersOf,
      sliceTensor, C2df, C2data2, C2filt, C2derOut2, Pdefault, Finset.sum_range_succ,
      Finset.sum_range_zero],
  by
    norm_num [nnconv3d_backward_blas, backwardImage, initState, backwardNumGroups,
      backwardFiltersVolume, forLoop_two, forLoop_one, forLoop, derFiltersGroupStep, gemm,
      vol2row, unfoldTarget, nOutPix, outDim, gemvT, allOnes, getDepth, fVol, derFiltersOf,
      sliceTensor, C2df, C2data2, C2filt, C2derOut2, Pdefault, Finset.sum_range_succ,
      Finset.sum_range_zero],
  by
    have h := C4_filterGrad_batch_additive Pdefault C2df C2data2 C2filt C2derOut2
      (fun _ => 99) 1 1 (by decide) (by decide) (by decide) (by decide) (by decide)
      (by decide) (by decide) 0 0 0 (by decide) (by decide) (by decide)
    simpa [fVol, C2df] using h⟩

/-! ### Claim C3: input gradient, per-image independence and fold formula -/

/-- Reference input gradient of one image, stated directly from the claim: for
each input cell, sum over all (output pixel, patch column) pairs that unfold
reads from that cell — overlapping contributions from stride/padding summing —
of the corresponding cell of `temp_g = outputGrad_g · filter_gᵗ` for the
column's group `g = col / filterVolume`.  It depends only on the one image's
output-gradient slice and the filters, not on other images or on the
destination's prior contents. -/
def derDataImageRef (P : ConvParams) (dd filters : Tensor) (nFPG : Nat)
    (derOutSlice : Nat → ℚ) (loc : Nat) : ℚ :=
  let nOP := nOutPix P dd.d0 dd.d1 dd.d2 filters.d0 filters.d1 filters.d2
  let fV := fVol filters
  let nCols := filters.d0 * filters.d1 * filters.d2 * dd.d3
  ∑ p ∈ Finset.range nOP, ∑ col ∈ Finset.range nCols,
    if unfoldTarget P dd.d0 dd.d1 dd.d2 filters.d0 filters.d1 filters.d2 p col = some loc then
      ∑ l ∈ Finset.range nFPG,
        derOutSlice (nOP * nFPG * (col / fV) + (p + nOP * l))
          * filters.mem (fV * nFPG * (col / fV) + (col % fV + fV * l))
    else 0

lemma backward_dd_eq (P : ConvParams) (dd : Tensor) (derFilters derBiases : Option Tensor)
    (data filters derOutput : Tensor) (temp0 : Nat → ℚ) (h : dd.d3 / filters.d3 ≠ 0) :
    nnconv3d_backward_blas P (some dd) derFilters derBiases data filters derOutput temp0
      = some (forLoop (backwardImage P (some dd) derFilters derBiases data filters derOutput
          (dd.d3 / filters.d3) (derOutput.d3 / (dd.d3 / filters.d3)) (fVol filters)
          (derOutput.d0 * derOutput.d1 * derOutput.d2)) derOutput.d4
          (initState (some dd) derFilters derBiases temp0)) := by
  simp only [nnconv3d_backward_blas, backwardNumGroups, backwardFiltersVolume]
  rw [if_neg h]

lemma backwardImage_derDataMem (P : ConvParams) (dd : Tensor)
    (derFilters derBiases : Option Tensor) (data filters derOutput : Tensor)
    (nG nFPG fV nOP image : Nat) (st : BwdState) :
    (backwardImage P (some dd) derFilters derBiases data filters derOutput nG nFPG fV nOP
        image st).derDataMem
      = row2vol P st.derDataMem (dd.d0 * dd.d1 * dd.d2 * dd.d3 * image) dd.d0 dd.d1 dd.d2
          dd.d3 filters.d0 filters.d1 filters.d2
          (forLoop (derDataGroupStep nOP nFPG fV derOutput.mem filters.mem
            (derOutput.d0 * derOutput.d1 * derOutput.d2 * derOutput.d3 * image)) nG
            st.tempMem) := by
  cases derBiases <;> cases derFilters <;> rfl

lemma backward_ddLoop_untouched (P : ConvParams) (dd : Tensor)
    (derFilters derBiases : Option Tensor) (data filters derOutput : Tensor)
    (nG nFPG fV nOP : Nat) (st0 : BwdState) (m n idx : Nat)
    (hmn : m ≤ n) (hidx : idx < dd.d0 * dd.d1 * dd.d2 * dd.d3 * m) :
    (forLoop (backwardImage P (some dd) derFilters derBiases data filters derOutput nG nFPG
        fV nOP) n st0).derDataMem idx
      = (forLoop (backwardImage P (some dd) derFilters derBiases data filters derOutput nG
          nFPG fV nOP) m st0).derDataMem idx := by
  induction n with
  | zero =>
      have hm : m = 0 := by omega
      rw [hm]
  | succ n ih =>
      rcases Nat.eq_or_lt_of_le hmn with he | hl
      · rw [he]
      · have hmn2 : m ≤ n := by omega
        show (backwardImage P (some dd) derFilters derBiases data filters derOutput nG nFPG
          fV nOP n (forLoop _ n st0)).derDataMem idx = _
        rw [backwardImage_derDataMem]
        rw [row2vol_untouched _ _ _ _ _ _ _ _ _ _ _ _ (Or.inl (Nat.lt_of_lt_of_le hidx
          (Nat.mul_le_mul (Nat.le_refl _) hmn2)))]
        exact ih hmn2

lemma derDataTemp_value (nOP nFPG fV nG : Nat) (derOutMem filtersMem : Nat → ℚ) (off : Nat)
    (t0 : Nat → ℚ) (p col : Nat) (hp : p < nOP) (hcol : col < fV * nG) (hfV : 0 < fV) :
    forLoop (derDataGroupStep nOP nFPG fV derOutMem filtersMem off) nG t0 (p + nOP * col)
      = ∑ l ∈ Finset.range nFPG,
          derOutMem (off + nOP * nFPG * (col / fV) + (p + nOP * l))
            * filtersMem (fV * nFPG * (col / fV) + (col % fV + fV * l)) := by
  have hnOP : 0 < nOP := by omega
  have hg : col / fV < nG := by
    rw [Nat.div_lt_iff_lt_mul hfV]
    have := Nat.mul_comm fV nG
    omega
  have hq : col % fV < fV := Nat.mod_lt _ hfV
  have hin : p + nOP * (col % fV) < nOP * fV := block_index_lt p (col % fV) nOP fV hp hq
  have h1 : fV * (col / fV) + col % fV = col := Nat.div_add_mod col fV
  have hsplit : p + nOP * col = nOP * fV * (col / fV) + (p + nOP * (col % fV)) := by
    calc p + nOP * col = p + nOP * (fV * (col / fV) + col % fV) := by rw [h1]
    _ = nOP * fV * (col / fV) + (p + nOP * (col % fV)) := by ring
  rw [hsplit]
  rw [forLoop_single _ _ (col / fV) nG t0 hg (fun g2 mem hg2 hne => by
    simp only [derDataGroupStep]
    exact gemm_offgroup_untouched false true nOP fV nFPG 1 _ nOP _ fV 0 mem nOP 0 (col / fV)
      g2 (p + nOP * (col % fV)) _ _ hnOP hin (by omega) (by omega) hne)]
  simp only [derDataGroupStep]
  rw [gemm_ft_target nOP fV nFPG 1 _ nOP _ fV 0 _ nOP (nOP * fV * (col / fV)) p (col % fV)
    hp (Nat.le_refl nOP) hq]
  simp only [zero_mul, one_mul, zero_add]

/-- C3: for every well-shaped backward call that supplies an input-gradient
destination, each image's input gradient equals the reference fold of the
per-group overwrite products `temp_g = outputGrad_g · filter_gᵗ` for that image
alone: the result depends only on that image's output-gradient slice and the
filters (no cross-image accumulation, and the destination's prior contents do
not appear), with overlapping patch contributions from stride/padding summing
at shared input positions. -/
theorem C3_inputGrad_per_image (P : ConvParams) (dd : Tensor)
    (derFilters derBiases : Option Tensor) (data filters derOutput : Tensor)
    (temp0 : Nat → ℚ) (nG nFPG : Nat)
    (hnG : nG = dd.d3 / filters.d3) (hnFPG : nFPG = derOutput.d3 / nG)
    (hdd3 : dd.d3 = filters.d3 * nG)
    (hd0 : derOutput.d0 = outDim dd.d0 filters.d0 P.strideY P.padTop P.padBottom)
    (hd1 : derOutput.d1 = outDim dd.d1 filters.d1 P.strideX P.padLeft P.padRight)
    (hd2 : derOutput.d2 = outDim dd.d2 filters.d2 P.strideT P.padTime P.padTime)
    (hnGpos : 0 < nG) (image loc : Nat) (him : image < derOutput.d4)
    (hloc : loc < dd.d0 * dd.d1 * dd.d2 * dd.d3) :
    (nnconv3d_backward_blas P (some dd) derFilters derBiases data filters derOutput
        temp0).map (fun st => st.derDataMem (dd.d0 * dd.d1 * dd.d2 * dd.d3 * image + loc))
      = some (derDataImageRef P dd filters nFPG
          (fun i => derOutput.mem
            (derOutput.d0 * derOutput.d1 * derOutput.d2 * derOutput.d3 * image + i)) loc) := by
  have hnz : dd.d3 / filters.d3 ≠ 0 := by omega
  rw [backward_dd_eq P dd derFilters derBiases data filters derOutput temp0 hnz]
  rw [Option.map_some']
  refine congrArg some ?_
  simp only [← hnG, ← hnFPG]
  have hD : dd.d0 * dd.d1 * dd.d2 * dd.d3 * image + loc
      < dd.d0 * dd.d1 * dd.d2 * dd.d3 * (image + 1) := by
    rw [Nat.mul_succ]
    omega
  rw [backward_ddLoop_untouched P dd derFilters derBiases data filters derOutput nG nFPG
    (fVol filters) (derOutput.d0 * derOutput.d1 * derOutput.d2) _ (image + 1) derOutput.d4 _
    him hD]
  show (backwardImage P (some dd) derFilters derBiases data filters derOutput nG nFPG
    (fVol filters) (derOutput.d0 * derOutput.d1 * derOutput.d2) image
    (forLoop _ image _)).derDataMem _ = _
  rw [backwardImage_derDataMem]
  rw [row2vol_apply P _ _ dd.d0 dd.d1 dd.d2 dd.d3 filters.d0 filters.d1 filters.d2 _ loc hloc]
  have hnOPe : derOutput.d0 * derOutput.d1 * derOutput.d2
      = nOutPix P dd.d0 dd.d1 dd.d2 filters.d0 filters.d1 filters.d2 := by
    rw [hd0, hd1, hd2]
    rfl
  have hfVnG : fVol filters * nG = filters.d0 * filters.d1 * filters.d2 * dd.d3 := by
    rw [hdd3]
    simp only [fVol]
    ring
  simp only [derDataImageRef]
  rw [← hnOPe]
  refine Finset.sum_congr rfl (fun p hp => ?_)
  refine Finset.sum_congr rfl (fun col hcol => ?_)
  have hp2 := Finset.mem_range.mp hp
  have hcol2 := Finset.mem_range.mp hcol
  have hcol3 : col < fVol filters * nG := by omega
  have hfVpos : 0 < fVol filters := by
    rcases Nat.eq_zero_or_pos (fVol filters) with h0 | h0
    · rw [h0] at hcol3
      simp at hcol3
    · exact h0
  split_ifs with htgt
  · rw [derDataTemp_value (derOutput.d0 * derOutput.d1 * derOutput.d2) nFPG (fVol filters)
      nG derOutput.mem filters.mem _ _ p col hp2 hcol3 hfVpos]
    refine Finset.sum_congr rfl (fun l hl => ?_)
    exact congrArg₂ (fun a b : ℚ => a * b) (congrArg derOutput.mem (by omega)) rfl
  · rfl

def C3dd : Tensor := ⟨3, 1, 1, 1, 1, fun _ => 7⟩

def C3filt : Tensor := ⟨2, 1, 1, 1, 1, fun i => if i = 0 then 10 else 1⟩

def C3dO : Tensor := ⟨2, 1, 1, 1, 1, fun i => if i = 0 then 4 else 9⟩

/-- Witness for C3: stride-1 size-2 filter `[10,1]` over 3 input cells, output
gradient `[4,9]` — the middle input cell receives both overlapping
contributions, `4*1 + 9*10 = 94`, regardless of the destination's prior
contents (7). -/
theorem C3_witness :
    (nnconv3d_backward_blas Pdefault (some C3dd) none none C2aux C3filt C3dO
        (fun _ => 99)).map
        (fun st => st.derDataMem (C3dd.d0 * C3dd.d1 * C3dd.d2 * C3dd.d3 * 0 + 1))
      = some 94 := by
  rw [C3_inputGrad_per_image Pdefault C3dd none none C2aux C3filt C3dO (fun _ => 99) 1 1
    (by decide) (by decide) (by decide) (by decide) (by decide) (by decide) (by decide) 0 1
    (by decide) (by decide)]
  norm_num [derDataImageRef, nOutPix, outDim, unfoldTarget, fVol, C3dd, C3filt, C3dO,
    Pdefault, Finset.sum_range_succ, Finset.sum_range_zero]

/-! ### Claim C1: forward correctness -/

/-- One input sample of the reference convolution: the input value at window
position `(y, x, t)` (coordinates counted inside the padded frame) and channel
`ch`, or `0` inside the padding. -/
def convAt (P : ConvParams) (data : Tensor) (dataOff y x t ch : Nat) : ℚ :=
  if P.padTop ≤ y ∧ y - P.padTop < data.d0 ∧ P.padLeft ≤ x ∧ x - P.padLeft < data.d1 ∧
      P.padTime ≤ t ∧ t - P.padTime < data.d2 then
    data.mem (dataOff + (y - P.padTop + data.d0 * (x - P.padLeft + data.d1 * (t - P.padTime
      + data.d2 * ch))))
  else 0

/-- Reference direct 3-D convolution of `data` with `filters` at output position
`(oy, ox, ot)` of image `image` for (global) filter `f`: the sum over the
filter window and the per-group input channels of input sample times filter
weight, with the group of `f` selecting the input-channel block. -/
def conv3d (P : ConvParams) (data filters : Tensor) (image oy ox ot f : Nat) : ℚ :=
  let nG := data.d3 / filters.d3
  let nFPG := filters.d4 / nG
  let dataOff := data.d0 * data.d1 * data.d2 * data.d3 * image
  ∑ c ∈ Finset.range filters.d3, ∑ ft ∈ Finset.range filters.d2,
    ∑ fx ∈ Finset.range filters.d1, ∑ fy ∈ Finset.range filters.d0,
      convAt P data dataOff (oy * P.strideY + fy) (ox * P.strideX + fx) (ot * P.strideT + ft)
          (c + filters.d3 * (f / nFPG))
        * filters.mem (fy + filters.d0 * (fx + filters.d1 * (ft + filters.d2 * c))
            + fVol filters * f)

lemma match_option_if {c : Prop} [Decidable c] (e : Nat) (f : Nat → ℚ) :
    (match (if c then some e else none) with
      | some l => f l
      | none => (0 : ℚ)) = if c then f e else 0 := by
  split_ifs <;> rfl

lemma unfoldTarget_decode (P : ConvParams) (dH dW dT : Nat) (fH fW fT : Nat)
    (oy ox ot fy fx ft cc : Nat)
    (hoy : oy < outDim dH fH P.strideY P.padTop P.padBottom)
    (hox : ox < outDim dW fW P.strideX P.padLeft P.padRight)
    (hfy : fy < fH) (hfx : fx < fW) (hft : ft < fT) :
    unfoldTarget P dH dW dT fH fW fT
        (oy + outDim dH fH P.strideY P.padTop P.padBottom
          * (ox + outDim dW fW P.strideX P.padLeft P.padRight * ot))
        (fy + fH * (fx + fW * (ft + fT * cc)))
      = if P.padTop ≤ oy * P.strideY + fy ∧ oy * P.strideY + fy - P.padTop < dH ∧
            P.padLeft ≤ ox * P.strideX + fx ∧ ox * P.strideX + fx - P.padLeft < dW ∧
            P.padTime ≤ ot * P.strideT + ft ∧ ot * P.strideT + ft - P.padTime < dT then
          some (oy * P.strideY + fy - P.padTop + dH * (ox * P.strideX + fx - P.padLeft
            + dW * (ot * P.strideT + ft - P.padTime + dT * cc)))
        else none := by
  have hp1 := add_mul_mod_eq oy (ox + outDim dW fW P.strideX P.padLeft P.padRight * ot) _ hoy
  have hp2 := add_mul_div_eq oy (ox + outDim dW fW P.strideX P.padLeft P.padRight * ot) _ hoy
  have hp3 := add_mul_mod_eq ox ot _ hox
  have hp4 : (oy + outDim dH fH P.strideY P.padTop P.padBottom
      * (ox + outDim dW fW P.strideX P.padLeft P.padRight * ot))
      / (outDim dH fH P.strideY P.padTop P.padBottom
        * outDim dW fW P.strideX P.padLeft P.padRight) = ot := by
    rw [← Nat.div_div_eq_div_mul, hp2, add_mul_div_eq ox ot _ hox]
  have hc1 := add_mul_mod_eq fy (fx + fW * (ft + fT * cc)) fH hfy
  have hc2 := add_mul_div_eq fy (fx + fW * (ft + fT * cc)) fH hfy
  have hc3 := add_mul_mod_eq fx (ft + fT * cc) fW hfx
  have hc4 : (fy + fH * (fx + fW * (ft + fT * cc))) / (fH * fW) = ft + fT * cc := by
    rw [← Nat.div_div_eq_div_mul, hc2, add_mul_div_eq fx (ft + fT * cc) fW hfx]
  have hc5 := add_mul_mod_eq ft cc fT hft
  have hc6 : (fy + fH * (fx + fW * (ft + fT * cc))) / (fH * fW * fT) = cc := by
    rw [← Nat.div_div_eq_div_mul, hc4, add_mul_div_eq ft cc fT hft]
  simp only [unfoldTarget]
  rw [hp1, hp2, hp3, hp4, hc1, hc2, hc3, hc4, hc5, hc6]

lemma forwardGroups_value (nOP nFPG fV nG : Nat) (dataMult outputMult : ℚ)
    (temp filtersMem : Nat → ℚ) (outputOffset : Nat) (out : Nat → ℚ) (p g j : Nat)
    (hp : p < nOP) (hg : g < nG) (hj : j < nFPG) :
    forLoop (forwardGroupStep nOP nFPG fV dataMult outputMult temp filtersMem outputOffset)
        nG out (outputOffset + nOP * nFPG * g + (p + nOP * j))
      = outputMult * out (outputOffset + nOP * nFPG * g + (p + nOP * j))
        + dataMult * ∑ l ∈ Finset.range fV,
            temp (nOP * fV * g + (p + nOP * l)) * filtersMem (fV * nFPG * g + (l + fV * j)) := by
  have hnOP : 0 < nOP := by omega
  have hin : p + nOP * j < nOP * nFPG := block_index_lt p j nOP nFPG hp hj
  rw [forLoop_single _ _ g nG out hg (fun g2 mem hg2 hne => by
    simp only [forwardGroupStep]
    exact gemm_offgroup_untouched false false nOP nFPG fV dataMult _ nOP _ fV outputMult mem
      nOP outputOffset g g2 (p + nOP * j) _ _ hnOP hin (by omega) (by omega) hne)]
  simp only [forwardGroupStep]
  rw [gemm_ff_target nOP nFPG fV dataMult _ nOP _ fV outputMult _ nOP
    (outputOffset + nOP * nFPG * g) p j hp (Nat.le_refl nOP) hj]
  rw [forLoop_all_untouched _ _ g out (fun g2 mem hg2 => by
    simp only [forwardGroupStep]
    exact gemm_offgroup_untouched false false nOP nFPG fV dataMult _ nOP _ fV outputMult mem
      nOP outputOffset g g2 (p + nOP * j) _ _ hnOP hin (by omega) (by omega) (by omega))]

lemma forwardImage_untouched_low (P : ConvParams) (output : Tensor) (outputMult : ℚ)
    (data : Tensor) (dataMult : ℚ) (filters : Tensor) (biases : Option Tensor)
    (temp0 : Nat → ℚ) (image idx : Nat) (mem : Nat → ℚ)
    (hidx : idx < output.d0 * output.d1 * output.d2 * output.d3 * image) :
    forwardImage P output outputMult data dataMult filters biases temp0 image mem idx
      = mem idx := by
  have hgrp : ∀ g mem2, g < data.d3 / filters.d3 →
      forwardGroupStep (output.d0 * output.d1 * output.d2)
        (filters.d4 / (data.d3 / filters.d3)) (fVol filters) dataMult outputMult
        (vol2row P (fun l => data.mem (data.d0 * data.d1 * data.d2 * data.d3 * image + l))
          data.d0 data.d1 data.d2 data.d3 filters.d0 filters.d1 filters.d2 temp0)
        filters.mem (output.d0 * output.d1 * output.d2 * output.d3 * image) g mem2 idx
      = mem2 idx := by
    intro g mem2 hg
    simp only [forwardGroupStep]
    apply gemm_untouched_low
    omega
  cases biases with
  | none =>
      simp only [forwardImage]
      exact forLoop_all_untouched _ _ _ mem (fun g mem2 hg => hgrp g mem2 hg)
  | some b =>
      simp only [forwardImage]
      refine (gemm_untouched_low _ _ _ _ _ _ _ _ _ _ _ _ _ _ _ ?_).trans ?_
      · omega
      · exact forLoop_all_untouched _ _ _ mem (fun g mem2 hg => hgrp g mem2 hg)

lemma forwardImage_untouched_high (P : ConvParams) (output : Tensor) (outputMult : ℚ)
    (data : Tensor) (dataMult : ℚ) (filters : Tensor) (biases : Option Tensor)
    (temp0 : Nat → ℚ) (nG nFPG : Nat)
    (hnG : nG = data.d3 / filters.d3) (hnFPG : nFPG = filters.d4 / nG)
    (hK : filters.d4 = nFPG * nG) (hd3 : output.d3 = filters.d4)
    (hb : ∀ b, biases = some b → numElements b = filters.d4)
    (hnOPpos : 0 < output.d0 * output.d1 * output.d2) (image idx : Nat) (mem : Nat → ℚ)
    (hidx : output.d0 * output.d1 * output.d2 * output.d3 * (image + 1) ≤ idx) :
    forwardImage P output outputMult data dataMult filters biases temp0 image mem idx
      = mem idx := by
  have hstride : output.d0 * output.d1 * output.d2 * output.d3
      = output.d0 * output.d1 * output.d2 * (nFPG * nG) := by
    rw [hd3, hK]
  have hmulsucc : output.d0 * output.d1 * output.d2 * output.d3 * (image + 1)
      = output.d0 * output.d1 * output.d2 * output.d3 * image
        + output.d0 * output.d1 * output.d2 * output.d3 := by
    ring
  have hgrp : ∀ g mem2, g < data.d3 / filters.d3 →
      forwardGroupStep (output.d0 * output.d1 * output.d2)
        (filters.d4 / (data.d3 / filters.d3)) (fVol filters) dataMult outputMult
        (vol2row P (fun l => data.mem (data.d0 * data.d1 * data.d2 * data.d3 * image + l))
          data.d0 data.d1 data.d2 data.d3 filters.d0 filters.d1 filters.d2 temp0)
        filters.mem (output.d0 * output.d1 * output.d2 * output.d3 * image) g mem2 idx
      = mem2 idx := by
    intro g mem2 hg
    rw [← hnG] at hg
    simp only [forwardGroupStep, ← hnG, ← hnFPG]
    apply gemm_untouched_high
    · exact hnOPpos
    have h1 : output.d0 * output.d1 * output.d2 * nFPG * (g + 1)
        ≤ output.d0 * output.d1 * output.d2 * nFPG * nG :=
      Nat.mul_le_mul (Nat.le_refl _) hg
    have h2 : output.d0 * output.d1 * output.d2 * nFPG * nG
        = output.d0 * output.d1 * output.d2 * (nFPG * nG) := by ring
    have h3 : output.d0 * output.d1 * output.d2 * nFPG * (g + 1)
        = output.d0 * output.d1 * output.d2 * nFPG * g
          + output.d0 * output.d1 * output.d2 * nFPG := by ring
    omega
  cases biases with
  | none =>
      simp only [forwardImage]
      exact forLoop_all_untouched _ _ _ mem (fun g mem2 hg => hgrp g mem2 hg)
  | some b =>
      simp only [forwardImage]
      refine (gemm_untouched_high _ _ _ _ _ _ _ _ _ _ _ _ _ _ _ hnOPpos ?_).trans ?_
      · have hbe : numElements b = filters.d4 := hb b rfl
        have h4 : output.d0 * output.d1 * output.d2 * numElements b
            = output.d0 * output.d1 * output.d2 * (nFPG * nG) := by
          rw [hbe, hK]
        omega
      · exact forLoop_all_untouched _ _ _ mem (fun g mem2 hg => hgrp g mem2 hg)

lemma forward_conv_core (P : ConvParams) (output data filters : Tensor)
    (dataMult outputMult : ℚ) (temp0 : Nat → ℚ) (out : Nat → ℚ) (nG nFPG : Nat)
    (hnG : nG = data.d3 / filters.d3) (hnFPG : nFPG = filters.d4 / nG)
    (hdC : data.d3 = filters.d3 * nG)
    (hd0 : output.d0 = outDim data.d0 filters.d0 P.strideY P.padTop P.padBottom)
    (hd1 : output.d1 = outDim data.d1 filters.d1 P.strideX P.padLeft P.padRight)
    (hd2 : output.d2 = outDim data.d2 filters.d2 P.strideT P.padTime P.padTime)
    (image oy ox ot g j : Nat)
    (hoy : oy < output.d0) (hox : ox < output.d1) (hot : ot < output.d2)
    (hg : g < nG) (hj : j < nFPG) :
    forLoop (forwardGroupStep (output.d0 * output.d1 * output.d2) nFPG (fVol filters)
        dataMult outputMult
        (vol2row P (fun l => data.mem (data.d0 * data.d1 * data.d2 * data.d3 * image + l))
          data.d0 data.d1 data.d2 data.d3 filters.d0 filters.d1 filters.d2 temp0)
        filters.mem (output.d0 * output.d1 * output.d2 * output.d3 * image)) nG out
        (output.d0 * output.d1 * output.d2 * output.d3 * image
          + (oy + output.d0 * (ox + output.d1 * (ot + output.d2 * (nFPG * g + j)))))
      = outputMult * out (output.d0 * output.d1 * output.d2 * output.d3 * image
          + (oy + output.d0 * (ox + output.d1 * (ot + output.d2 * (nFPG * g + j)))))
        + dataMult * conv3d P data filters image oy ox ot (nFPG * g + j) := by
  have hnFPGpos : 0 < nFPG := by omega
  have hgdecode : (nFPG * g + j) / nFPG = g := by
    rw [Nat.add_comm (nFPG * g) j]
    exact add_mul_div_eq j g nFPG hj
  have hb1 : ox + output.d1 * ot < output.d1 * output.d2 :=
    block_index_lt ox ot output.d1 output.d2 hox hot
  have hb2 : oy + output.d0 * (ox + output.d1 * ot)
      < output.d0 * (output.d1 * output.d2) :=
    block_index_lt _ _ _ _ hoy hb1
  have hpnOP : oy + output.d0 * ox + output.d0 * output.d1 * ot
      < output.d0 * output.d1 * output.d2 := by
    have h3 : oy + output.d0 * (ox + output.d1 * ot)
        = oy + output.d0 * ox + output.d0 * output.d1 * ot := by ring
    have h4 : output.d0 * (output.d1 * output.d2) = output.d0 * output.d1 * output.d2 := by
      ring
    omega
  have hidx : output.d0 * output.d1 * output.d2 * output.d3 * image
      + (oy + output.d0 * (ox + output.d1 * (ot + output.d2 * (nFPG * g + j))))
      = output.d0 * output.d1 * output.d2 * output.d3 * image
        + output.d0 * output.d1 * output.d2 * nFPG * g
        + ((oy + output.d0 * ox + output.d0 * output.d1 * ot)
          + output.d0 * output.d1 * output.d2 * j) := by ring
  rw [hidx]
  rw [forwardGroups_value (output.d0 * output.d1 * output.d2) nFPG (fVol filters) nG
    dataMult outputMult _ _ _ out (oy + output.d0 * ox + output.d0 * output.d1 * ot) g j
    hpnOP hg hj]
  congr 1
  congr 1
  simp only [conv3d, ← hnG, ← hnFPG, hgdecode, fVol]
  rw [sum_range_mul_decomp (filters.d0 * filters.d1 * filters.d2) filters.d3]
  refine Finset.sum_congr rfl (fun c hc => ?_)
  rw [sum_range_mul_decomp (filters.d0 * filters.d1) filters.d2]
  refine Finset.sum_congr rfl (fun ft hft => ?_)
  rw [sum_range_mul_decomp filters.d0 filters.d1]
  refine Finset.sum_congr rfl (fun fx hfx => ?_)
  refine Finset.sum_congr rfl (fun fy hfy => ?_)
  have hc2 := Finset.mem_range.mp hc
  have hft2 := Finset.mem_range.mp hft
  have hfx2 := Finset.mem_range.mp hfx
  have hfy2 := Finset.mem_range.mp hfy
  have hlb1 : fy + filters.d0 * fx < filters.d0 * filters.d1 :=
    block_index_lt _ _ _ _ hfy2 hfx2
  have hlb2 : fy + filters.d0 * fx + filters.d0 * filters.d1 * ft
      < filters.d0 * filters.d1 * filters.d2 :=
    block_index_lt _ _ _ _ hlb1 hft2
  have hlb3 : fy + filters.d0 * fx + filters.d0 * filters.d1 * ft
      + filters.d0 * filters.d1 * filters.d2 * c
      < filters.d0 * filters.d1 * filters.d2 * filters.d3 :=
    block_index_lt _ _ _ _ hlb2 hc2
  have hcolblk := block_index_lt
    (fy + filters.d0 * fx + filters.d0 * filters.d1 * ft
      + filters.d0 * filters.d1 * filters.d2 * c) g
    (filters.d0 * filters.d1 * filters.d2 * filters.d3) nG hlb3 hg
  have hcols2 : filters.d0 * filters.d1 * filters.d2 * filters.d3 * nG
      = filters.d0 * filters.d1 * filters.d2 * data.d3 := by
    rw [hdC]
    ring
  have hindexeq : output.d0 * output.d1 * output.d2
        * (filters.d0 * filters.d1 * filters.d2 * filters.d3) * g
      + ((oy + output.d0 * ox + output.d0 * output.d1 * ot)
        + output.d0 * output.d1 * output.d2
          * (fy + filters.d0 * fx + filters.d0 * filters.d1 * ft
            + filters.d0 * filters.d1 * filters.d2 * c))
      = (oy + output.d0 * ox + output.d0 * output.d1 * ot)
        + output.d0 * output.d1 * output.d2
          * (filters.d0 * filters.d1 * filters.d2 * filters.d3 * g
            + (fy + filters.d0 * fx + filters.d0 * filters.d1 * ft
              + filters.d0 * filters.d1 * filters.d2 * c)) := by ring
  have hnOPe : output.d0 * output.d1 * output.d2
      = nOutPix P data.d0 data.d1 data.d2 filters.d0 filters.d1 filters.d2 := by
    rw [hd0, hd1, hd2]
    rfl
  have hp3 : oy + output.d0 * ox + output.d0 * output.d1 * ot
      < nOutPix P data.d0 data.d1 data.d2 filters.d0 filters.d1 filters.d2 := by
    omega
  have hcol3 : filters.d0 * filters.d1 * filters.d2 * filters.d3 * g
      + (fy + filters.d0 * fx + filters.d0 * filters.d1 * ft
        + filters.d0 * filters.d1 * filters.d2 * c)
      < filters.d0 * filters.d1 * filters.d2 * data.d3 := by
    omega
  rw [hindexeq, hnOPe]
  rw [vol2row_apply P _ data.d0 data.d1 data.d2 data.d3 filters.d0 filters.d1 filters.d2
    temp0 _ _ hp3 hcol3]
  have hpform : oy + output.d0 * ox + output.d0 * output.d1 * ot
      = oy + outDim data.d0 filters.d0 P.strideY P.padTop P.padBottom
        * (ox + outDim data.d1 filters.d1 P.strideX P.padLeft P.padRight * ot) := by
    rw [← hd0, ← hd1]
    ring
  have hcolform : filters.d0 * filters.d1 * filters.d2 * filters.d3 * g
      + (fy + filters.d0 * fx + filters.d0 * filters.d1 * ft
        + filters.d0 * filters.d1 * filters.d2 * c)
      = fy + filters.d0 * (fx + filters.d1 * (ft + filters.d2 * (c + filters.d3 * g))) := by
    ring
  rw [hpform, hcolform]
  rw [unfoldTarget_decode P data.d0 data.d1 data.d2 filters.d0 filters.d1 filters.d2
    oy ox ot fy fx ft (c + filters.d3 * g) (hd0 ▸ hoy) (hd1 ▸ hox) hfy2 hfx2 hft2]
  rw [match_option_if]
  refine congrArg₂ (fun a b : ℚ => a * b) rfl (congrArg filters.mem (by ring))

/-- C1: for every valid forward call (pre-dimensioned output, exact group
divisions, bias length equal to the filter count when supplied), every output
element of every image of the batch equals `outputMult` times its prior value
plus `dataMult` times the direct 3-D convolution of the data with the filters,
plus the per-channel bias — added with coefficient 1 regardless of
`outputMult` — when a bias is supplied. -/
theorem C1_forward_output (P : ConvParams) (output : Tensor) (outputMult : ℚ)
    (data : Tensor) (dataMult : ℚ) (filters : Tensor) (biases : Option Tensor)
    (temp0 : Nat → ℚ) (nG nFPG : Nat)
    (hnG : nG = data.d3 / filters.d3) (hnFPG : nFPG = filters.d4 / nG)
    (hdC : data.d3 = filters.d3 * nG) (hK : filters.d4 = nFPG * nG)
    (hd0 : output.d0 = outDim data.d0 filters.d0 P.strideY P.padTop P.padBottom)
    (hd1 : output.d1 = outDim data.d1 filters.d1 P.strideX P.padLeft P.padRight)
    (hd2 : output.d2 = outDim data.d2 filters.d2 P.strideT P.padTime P.padTime)
    (hd3 : output.d3 = filters.d4)
    (hb : ∀ b, biases = some b → numElements b = filters.d4)
    (image oy ox ot f : Nat) (him : image < data.d4)
    (hoy : oy < output.d0) (hox : ox < output.d1) (hot : ot < output.d2)
    (hf : f < filters.d4) :
    nnconv3d_forward_blas P output outputMult data dataMult filters biases temp0
        (output.d0 * output.d1 * output.d2 * output.d3 * image
          + (oy + output.d0 * (ox + output.d1 * (ot + output.d2 * f))))
      = outputMult * output.mem (output.d0 * output.d1 * output.d2 * output.d3 * image
          + (oy + output.d0 * (ox + output.d1 * (ot + output.d2 * f))))
        + dataMult * conv3d P data filters image oy ox ot f
        + (match biases with | some b => b.mem f | none => 0) := by
  have hnGpos : 0 < nG := by
    rcases Nat.eq_zero_or_pos nG with h0 | h0
    · rw [h0, Nat.mul_zero] at hK
      omega
    · exact h0
  have hnFPGpos : 0 < nFPG := by
    rcases Nat.eq_zero_or_pos nFPG with h0 | h0
    · rw [h0, Nat.zero_mul] at hK
      omega
    · exact h0
  obtain ⟨g, j, hfgj, hj⟩ : ∃ g j, f = nFPG * g + j ∧ j < nFPG :=
    ⟨f / nFPG, f % nFPG, (Nat.div_add_mod f nFPG).symm, Nat.mod_lt f hnFPGpos⟩
  subst hfgj
  have hg : g < nG := by
    have h1 : nFPG * g < nFPG * nG := by
      calc nFPG * g ≤ nFPG * g + j := Nat.le_add_right _ _
      _ < filters.d4 := hf
      _ = nFPG * nG := hK
    exact Nat.lt_of_mul_lt_mul_left h1
  have hnOPpos : 0 < output.d0 * output.d1 * output.d2 := by
    have h0 : 0 < output.d0 := by omega
    have h1 : 0 < output.d1 := by omega
    have h2 : 0 < output.d2 := by omega
    exact Nat.mul_pos (Nat.mul_pos h0 h1) h2
  have hfK : nFPG * g + j < output.d3 := by omega
  have hflatlt : oy + output.d0 * (ox + output.d1 * (ot + output.d2 * (nFPG * g + j)))
      < output.d0 * output.d1 * output.d2 * output.d3 := by
    have b1 : ot + output.d2 * (nFPG * g + j) < output.d2 * output.d3 :=
      block_index_lt _ _ _ _ hot hfK
    have b2 : ox + output.d1 * (ot + output.d2 * (nFPG * g + j))
        < output.d1 * (output.d2 * output.d3) := block_index_lt _ _ _ _ hox b1
    have b3 : oy + output.d0 * (ox + output.d1 * (ot + output.d2 * (nFPG * g + j)))
        < output.d0 * (output.d1 * (output.d2 * output.d3)) :=
      block_index_lt _ _ _ _ hoy b2
    have b4 : output.d0 * (output.d1 * (output.d2 * output.d3))
        = output.d0 * output.d1 * output.d2 * output.d3 := by ring
    omega
  have hb1 : ox + output.d1 * ot < output.d1 * output.d2 :=
    block_index_lt ox ot output.d1 output.d2 hox hot
  have hb2 : oy + output.d0 * (ox + output.d1 * ot)
      < output.d0 * (output.d1 * output.d2) := block_index_lt _ _ _ _ hoy hb1
  have hpnOP : oy + output.d0 * ox + output.d0 * output.d1 * ot
      < output.d0 * output.d1 * output.d2 := by
    have h3 : oy + output.d0 * (ox + output.d1 * ot)
        = oy + output.d0 * ox + output.d0 * output.d1 * ot := by ring
    have h4 : output.d0 * (output.d1 * output.d2) = output.d0 * output.d1 * output.d2 := by
      ring
    omega
  unfold nnconv3d_forward_blas
  rw [forLoop_untouched (forwardImage P output outputMult data dataMult filters biases temp0)
    _ (image + 1) data.d4 output.mem him (fun i mem hi1 hi2 =>
      forwardImage_untouched_low P output outputMult data dataMult filters biases temp0 i _
        mem (by
          have h5 : output.d0 * output.d1 * output.d2 * output.d3 * (image + 1)
              ≤ output.d0 * output.d1 * output.d2 * output.d3 * i :=
            Nat.mul_le_mul (Nat.le_refl _) hi1
          have h6 : output.d0 * output.d1 * output.d2 * output.d3 * (image + 1)
              = output.d0 * output.d1 * output.d2 * output.d3 * image
                + output.d0 * output.d1 * output.d2 * output.d3 := by ring
          omega))]
  have hprior : forLoop (forwardImage P output outputMult data dataMult filters biases temp0)
      image output.mem
      (output.d0 * output.d1 * output.d2 * output.d3 * image
        + (oy + output.d0 * (ox + output.d1 * (ot + output.d2 * (nFPG * g + j)))))
      = output.mem (output.d0 * output.d1 * output.d2 * output.d3 * image
        + (oy + output.d0 * (ox + output.d1 * (ot + output.d2 * (nFPG * g + j))))) :=
    forLoop_untouched _ _ 0 image output.mem (Nat.zero_le _) (fun i mem hi1 hi2 =>
      forwardImage_untouched_high P output outputMult data dataMult filters biases temp0
        nG nFPG hnG hnFPG hK hd3 hb hnOPpos i _ mem (by
          have h5 : output.d0 * output.d1 * output.d2 * output.d3 * (i + 1)
              ≤ output.d0 * output.d1 * output.d2 * output.d3 * image :=
            Nat.mul_le_mul (Nat.le_refl _) hi2
          omega))
  show forwardImage P output outputMult data dataMult filters biases temp0 image
    (forLoop (forwardImage P output outputMult data dataMult filters biases temp0) image
      output.mem) _ = _
  cases biases with
  | none =>
      simp only [forwardImage, ← hnG, ← hnFPG]
      rw [forward_conv_core P output data filters dataMult outputMult temp0 _ nG nFPG hnG
        hnFPG hdC hd0 hd1 hd2 image oy ox ot g j hoy hox hot hg hj]
      rw [hprior]
      ring
  | some b =>
      simp only [forwardImage, ← hnG, ← hnFPG]
      have hidx2 : output.d0 * output.d1 * output.d2 * output.d3 * image
          + (oy + output.d0 * (ox + output.d1 * (ot + output.d2 * (nFPG * g + j))))
          = output.d0 * output.d1 * output.d2 * output.d3 * image
            + ((oy + output.d0 * ox + output.d0 * output.d1 * ot)
              + output.d0 * output.d1 * output.d2 * (nFPG * g + j)) := by ring
      rw [hidx2]
      rw [gemm_ff_target (output.d0 * output.d1 * output.d2) (numElements b) 1 1 allOnes
        (output.d0 * output.d1 * output.d2) b.mem 1 1 _
        (output.d0 * output.d1 * output.d2)
        (output.d0 * output.d1 * output.d2 * output.d3 * image)
        (oy + output.d0 * ox + output.d0 * output.d1 * ot) (nFPG * g + j) hpnOP
        (Nat.le_refl _) (by rw [hb b rfl]; omega)]
      simp only [Finset.sum_range_one, allOnes, one_mul, zero_add]
      rw [← hidx2]
      rw [forward_conv_core P output data filters dataMult outputMult temp0 _ nG nFPG hnG
        hnFPG hdC hd0 hd1 hd2 image oy ox ot g j hoy hox hot hg hj]
      rw [hprior]

def C1data : Tensor := ⟨2, 1, 1, 1, 1, fun i => if i = 0 then 3 else 5⟩

def C1filt : Tensor := ⟨2, 1, 1, 1, 1, fun i => if i = 0 then 2 else 7⟩

def C1out : Tensor := ⟨1, 1, 1, 1, 1, fun _ => 10⟩

def C1bias : Tensor := ⟨1, 1, 1, 1, 1, fun _ => 100⟩

/-- Witness for C1: data `[3,5]`, filters `[2,7]`, prior output 10, bias 100,
`outputMult = 1/2`, `dataMult = 2`: the output cell holds
`(1/2)*10 + 2*(3*2+5*7) + 100 = 187`. -/
theorem C1_witness :
    (nnconv3d_forward_blas Pdefault C1out (1/2) C1data 2 C1filt (some C1bias) (fun _ => 99)
        (C1out.d0 * C1out.d1 * C1out.d2 * C1out.d3 * 0
          + (0 + C1out.d0 * (0 + C1out.d1 * (0 + C1out.d2 * 0))))
      = (1/2) * C1out.mem (C1out.d0 * C1out.d1 * C1out.d2 * C1out.d3 * 0
          + (0 + C1out.d0 * (0 + C1out.d1 * (0 + C1out.d2 * 0))))
        + 2 * conv3d Pdefault C1data C1filt 0 0 0 0 0
        + (match (some C1bias : Option Tensor) with | some b => b.mem 0 | none => 0)) ∧
    nnconv3d_forward_blas Pdefault C1out (1/2) C1data 2 C1filt (some C1bias) (fun _ => 99) 0
      = 187 :=
  ⟨C1_forward_output Pdefault C1out (1/2) C1data 2 C1filt (some C1bias) (fun _ => 99) 1 1
      (by decide) (by decide) (by decide) (by decide) (by decide) (by decide) (by decide)
      (by decide) (fun b hbe => by cases hbe; decide) 0 0 0 0 0 (by decide) (by decide)
      (by decide) (by decide) (by decide),
    by
      norm_num [nnconv3d_forward_blas, forwardImage, forwardGroupStep, gemm, vol2row,
        unfoldTarget, nOutPix, outDim, allOnes, numElements, fVol, forLoop_one, forLoop,
        C1data, C1filt, C1out, C1bias, Pdefault, Finset.sum_range_succ,
        Finset.sum_range_zero]⟩
